import Mathlib

/-!
Block-level prefix scan built from warp scans (rocPRIM `block_scan_warp_scan`).

A shallow embedding of `library/rocprim/include/block/detail/block_scan_warp_scan.hpp`.

Conventions of the embedding.

* `BlockSize` and `warp_size_` are compile-time constants of the class; they are
  explicit arguments here.  Thread indices are natural numbers: block sizes are
  bounded by the device launch limits, far below the range of `unsigned int`.
* A per-thread register (`input`, `output`, ...) is a function from the flat thread
  id to its value; only the threads `flat_tid < BlockSize` exist.
* `storage.warp_prefixes` is a function from the slot index to its content.
* The code between two block-wide barriers is one phase.  Inside a phase the
  statements are executed for the existing threads in thread order
  (`for_each_thread`); a thread that fails the guard of an `if` skips its body.
-/

namespace block_scan_warp_scan

variable {T : Type}

/-! ## Sequential folds -/

/-- The value `v base ⊕ v (base+1) ⊕ ... ⊕ v (base+n)`, associated to the left. -/
def fold_from (scan_op : T → T → T) (v : Nat → T) (base : Nat) : Nat → T
  | 0 => v base
  | n + 1 => scan_op (fold_from scan_op v base n) (v (base + (n + 1)))

/-- Reference sequential inclusive scan: the left fold of `scan_op` over
`v 0, v 1, ..., v i`, in index order. -/
def reference_inclusive (scan_op : T → T → T) (v : Nat → T) (i : Nat) : T :=
  (List.range i).foldl (fun acc j => scan_op acc (v (j + 1))) (v 0)

/-- Reference sequential exclusive scan with an initial value: the left fold of
`scan_op` over `init, v 0, ..., v (i-1)`, in index order. -/
def reference_exclusive (scan_op : T → T → T) (init : T) (v : Nat → T) (i : Nat) : T :=
  (List.range i).foldl (fun acc j => scan_op acc (v j)) init

/-- Flattened view of per-thread item arrays: flattened index `i` is item
`i % ItemsPerThread` of thread `i / ItemsPerThread`. -/
def flatten (ItemsPerThread : Nat) (input : Nat → Nat → T) (i : Nat) : T :=
  input (i / ItemsPerThread) (i % ItemsPerThread)

/-! ## Configuration and thread identification -/

/-- Number of warps in block: `(BlockSize + warp_size_ - 1) / warp_size_`. -/
def warps_no_ (BlockSize warp_size_ : Nat) : Nat :=
  (BlockSize + warp_size_ - 1) / warp_size_

/-- Modelled from the spec: the intrinsic `::rocprim::warp_id()` (intrinsics.hpp is
not among the sources).  The block's threads are partitioned into lane-groups of
`warp_size_` consecutive threads, identified by `group_id` within the block. -/
def warp_id (warp_size_ flat_tid : Nat) : Nat := flat_tid / warp_size_

/-- Modelled from the spec: the intrinsic `::rocprim::lane_id()` (intrinsics.hpp is
not among the sources): the index of a lane relative to its group. -/
def lane_id (warp_size_ flat_tid : Nat) : Nat := flat_tid % warp_size_

/-- Auxiliary loop of `next_power_of_two`: doubles `acc` until it reaches `x`. -/
def next_power_of_two_loop (x : Nat) : Nat → Nat → Nat
  | 0, acc => acc
  | fuel + 1, acc => if x ≤ acc then acc else next_power_of_two_loop x fuel (2 * acc)

/-- Modelled from the spec: `detail::next_power_of_two` (detail/various.hpp is not
among the sources): the least power of two that is at least `x`. -/
def next_power_of_two (x : Nat) : Nat := next_power_of_two_loop x x 1

/-! ## Lane-group primitives -/

/-- Modelled from the spec: `warp_scan_shuffle<T, WarpSize>::inclusive_scan`
(warp/detail/warp_scan_shuffle.hpp is not among the sources).  Section 4.1 of the
specification gives its contract: for a lane-group of `WarpSize` lanes and a
per-lane value it computes the inclusive scan under `scan_op`; the lane with index
`l` of a group receives the left fold of the values of lanes `0..l` of that group.
Only lower lanes of the same group are read, so a partially populated group whose
existing lanes are its first lanes is scanned correctly. -/
def warp_scan_shuffle_inclusive_scan (WarpSize : Nat) (scan_op : T → T → T)
    (input : Nat → T) (flat_tid : Nat) : T :=
  fold_from scan_op input (flat_tid - flat_tid % WarpSize) (flat_tid % WarpSize)

/-- Modelled from the spec: the intrinsic `warp_shuffle_up(value, delta, width)`
(intrinsics.hpp is not among the sources): an intra-group shift by `delta` lanes;
a lane whose index in its group is below `delta` keeps its own value. -/
def warp_shuffle_up (value : Nat → T) (delta width : Nat) (flat_tid : Nat) : T :=
  if flat_tid % width < delta then value flat_tid else value (flat_tid - delta)

/-! ## Shared storage and phases -/

/-- The shared storage of the block: `T warp_prefixes[warps_no_]`. -/
structure storage_type (T : Type) where
  warp_prefixes : Nat → T

/-- The assignment `storage.warp_prefixes[i] = x`. -/
def storage_type.set (storage : storage_type T) (i : Nat) (x : T) : storage_type T :=
  ⟨fun j => if j = i then x else storage.warp_prefixes j⟩

/-- One phase: the threads `0, ..., BlockSize - 1` execute `body` in thread order. -/
def for_each_thread {σ : Type} (BlockSize : Nat) (body : Nat → σ → σ) (s : σ) : σ :=
  (List.range BlockSize).foldl (fun s flat_tid => body flat_tid s) s

/-- `calculate_warp_prefixes` (lines 536-563), the whole block at once.
`inclusive_input` holds the per-thread result of the warp scan. -/
def calculate_warp_prefixes (BlockSize warp_size_ : Nat) (scan_op : T → T → T)
    (inclusive_input : Nat → T) (storage : storage_type T) : storage_type T :=
  -- Save the warp reduction result, that is the scan result for last element in each warp
  let storage1 := for_each_thread BlockSize (fun flat_tid st =>
    if flat_tid = min ((warp_id warp_size_ flat_tid + 1) * warp_size_) BlockSize - 1 then
      st.set (warp_id warp_size_ flat_tid) (inclusive_input flat_tid)
    else st) storage
  -- syncthreads
  -- Scan the warp reduction results and store in storage.warp_prefixes
  let loaded : Nat → T := fun flat_tid => storage1.warp_prefixes flat_tid
  let scanned : Nat → T := warp_scan_shuffle_inclusive_scan
    (next_power_of_two (warps_no_ BlockSize warp_size_)) scan_op loaded
  for_each_thread BlockSize (fun flat_tid st =>
    if flat_tid < warps_no_ BlockSize warp_size_ then st.set flat_tid (scanned flat_tid)
    else st) storage1
  -- syncthreads

/-- Index of the last existing lane of group `g`, the thread that saves the warp
reduction of group `g`: `min((g+1) * warp_size_, BlockSize) - 1`. -/
def last_lane (BlockSize warp_size_ g : Nat) : Nat :=
  min ((g + 1) * warp_size_) BlockSize - 1

/-- Result of a scan: the per-thread `output` (of type `O`: one value per thread, or
one array per thread) and the shared storage the call leaves. -/
structure scan_state (O T : Type) where
  output : O
  storage : storage_type T

/-- Result of a scan overload with a `T& reduction` argument. -/
structure reduction_state (O T : Type) where
  output : O
  reduction : Nat → T
  storage : storage_type T

/-- Result of a scan overload with a `PrefixCallback`: `calls` lists the invocations
of `prefix_callback_op`, each with the invoking thread and the argument it passed. -/
structure callback_state (O T : Type) where
  output : O
  calls : List (Nat × T)
  storage : storage_type T

/-- `inclusive_scan_impl` (lines 448-471). -/
def inclusive_scan_impl (BlockSize warp_size_ : Nat) (scan_op : T → T → T)
    (input : Nat → T) (storage : storage_type T) : scan_state (Nat → T) T :=
  -- Perform warp scan
  let output1 := warp_scan_shuffle_inclusive_scan warp_size_ scan_op input
  let storage1 := calculate_warp_prefixes BlockSize warp_size_ scan_op output1 storage
  -- Use warp prefix to calculate the final scan results for every thread
  { output := fun flat_tid =>
      if warp_id warp_size_ flat_tid ≠ 0 then
        scan_op (storage1.warp_prefixes (warp_id warp_size_ flat_tid - 1)) (output1 flat_tid)
      else output1 flat_tid
    storage := storage1 }

/-- `exclusive_scan_impl` with `init` (lines 473-504). -/
def exclusive_scan_impl (BlockSize warp_size_ : Nat) (scan_op : T → T → T)
    (input : Nat → T) (init : T) (storage : storage_type T) : scan_state (Nat → T) T :=
  -- Perform warp scan on input values
  let output1 := warp_scan_shuffle_inclusive_scan warp_size_ scan_op input
  let storage1 := calculate_warp_prefixes BlockSize warp_size_ scan_op output1 storage
  -- Include initial value in warp prefixes, and fix warp prefixes
  -- for exclusive scan (first warp prefix is init)
  let prefix_of : Nat → T := fun flat_tid =>
    if warp_id warp_size_ flat_tid ≠ 0 then
      scan_op init (storage1.warp_prefixes (warp_id warp_size_ flat_tid - 1))
    else init
  -- Use warp prefix to calculate the final scan results for every thread
  let output2 : Nat → T := fun flat_tid => scan_op (prefix_of flat_tid) (output1 flat_tid)
  let output3 := warp_shuffle_up output2 1 warp_size_
  { output := fun flat_tid =>
      if lane_id warp_size_ flat_tid = 0 then prefix_of flat_tid else output3 flat_tid
    storage := storage1 }

/-- `exclusive_scan_impl` without `init` (lines 506-534), "exclusive scan with unknown
initial value".  `uninit flat_tid` is the indeterminate content of the local
`T warp_prefix;` of thread `flat_tid`, which the threads of warp 0 never assign. -/
def exclusive_scan_impl_no_init (BlockSize warp_size_ : Nat) (scan_op : T → T → T)
    (input : Nat → T) (uninit : Nat → T) (storage : storage_type T) :
    scan_state (Nat → T) T :=
  -- Perform warp scan on input values
  let output1 := warp_scan_shuffle_inclusive_scan warp_size_ scan_op input
  let storage1 := calculate_warp_prefixes BlockSize warp_size_ scan_op output1 storage
  -- Use warp prefix to calculate the final scan results for every thread
  let prefix_of : Nat → T := fun flat_tid =>
    if warp_id warp_size_ flat_tid ≠ 0 then
      storage1.warp_prefixes (warp_id warp_size_ flat_tid - 1)
    else uninit flat_tid
  let output2 : Nat → T := fun flat_tid =>
    if warp_id warp_size_ flat_tid ≠ 0 then scan_op (prefix_of flat_tid) (output1 flat_tid)
    else output1 flat_tid
  let output3 := warp_shuffle_up output2 1 warp_size_
  { output := fun flat_tid =>
      if lane_id warp_size_ flat_tid = 0 then prefix_of flat_tid else output3 flat_tid
    storage := storage1 }

/-- State threaded through the threads of `get_block_prefix` before its barrier. -/
structure prefix_state (T : Type) where
  calls : List (Nat × T)
  storage : storage_type T

/-- `get_block_prefix` (lines 565-584).  `reduction flat_tid` is the argument thread
`flat_tid` passes; `prefix_callback_op flat_tid r` is the value the callback returns
to thread `flat_tid` when called with `r`.  The `output` is the value returned to
each thread. -/
def get_block_prefix (BlockSize warp_size_ : Nat) (reduction : Nat → T)
    (prefix_callback_op : Nat → T → T) (storage : storage_type T) :
    callback_state (Nat → T) T :=
  let st := for_each_thread BlockSize (fun flat_tid (st : prefix_state T) =>
    if warp_id warp_size_ flat_tid = 0 then
      let called : prefix_state T :=
        { calls := st.calls ++ [(flat_tid, reduction flat_tid)], storage := st.storage }
      if flat_tid = 0 then
        -- Reuse storage.warp_prefixes[warps_no_ - 1] to store block prefix
        { calls := called.calls
          storage := called.storage.set (warps_no_ BlockSize warp_size_ - 1)
            (prefix_callback_op flat_tid (reduction flat_tid)) }
      else called
    else st) { calls := [], storage := storage }
  -- syncthreads
  { output := fun _ => st.storage.warp_prefixes (warps_no_ BlockSize warp_size_ - 1)
    calls := st.calls
    storage := st.storage }

/-! ## Thread-local loops over the items of one thread -/

/-- The loop `for(i = 1; i < ItemsPerThread; i++) thread_input = scan_op(thread_input,
input[i])` started with `thread_input = input[0]`: the value after `n` iterations. -/
def reduce_items (scan_op : T → T → T) (input : Nat → T) : Nat → T
  | 0 => input 0
  | n + 1 => scan_op (reduce_items scan_op input n) (input (n + 1))

/-- The loop `for(i = 1; i < ItemsPerThread; i++) output[i] = scan_op(output[i-1],
input[i])` started with `output[0] = first`: the value of `output[i]`. -/
def inclusive_items (scan_op : T → T → T) (input : Nat → T) (first : T) : Nat → T
  | 0 => first
  | i + 1 => scan_op (inclusive_items scan_op input first i) (input (i + 1))

/-- The loop `exclusive = scan_op(exclusive, prev); prev = input[i]; output[i] =
exclusive` started with `prev = input[0]`, `exclusive = first`: the pair
`(exclusive, prev)` after iteration `i`. -/
def exclusive_items_loop (scan_op : T → T → T) (input : Nat → T) (first : T) : Nat → T × T
  | 0 => (first, input 0)
  | i + 1 =>
    let s := exclusive_items_loop scan_op input first i
    (scan_op s.1 s.2, input (i + 1))

/-- The value of `output[i]` written by the loop of `exclusive_items_loop`. -/
def exclusive_items (scan_op : T → T → T) (input : Nat → T) (first : T) (i : Nat) : T :=
  (exclusive_items_loop scan_op input first i).1

/-! ## Public operations -/

/-- `inclusive_scan(input, output, storage, scan_op)` (lines 80-90). -/
def inclusive_scan (BlockSize warp_size_ : Nat) (scan_op : T → T → T)
    (input : Nat → T) (storage : storage_type T) : scan_state (Nat → T) T :=
  inclusive_scan_impl BlockSize warp_size_ scan_op input storage

/-- `inclusive_scan(input, output, reduction, storage, scan_op)` (lines 101-111). -/
def inclusive_scan_reduction (BlockSize warp_size_ : Nat) (scan_op : T → T → T)
    (input : Nat → T) (storage : storage_type T) : reduction_state (Nat → T) T :=
  let r := inclusive_scan BlockSize warp_size_ scan_op input storage
  -- Save reduction result
  { output := r.output
    reduction := fun _ => r.storage.warp_prefixes (warps_no_ BlockSize warp_size_ - 1)
    storage := r.storage }

/-- `inclusive_scan(input, output, prefix_callback_op, storage, scan_op)`
(lines 123-140). -/
def inclusive_scan_callback (BlockSize warp_size_ : Nat) (scan_op : T → T → T)
    (input : Nat → T) (prefix_callback_op : Nat → T → T) (storage : storage_type T) :
    callback_state (Nat → T) T :=
  let r := inclusive_scan_impl BlockSize warp_size_ scan_op input storage
  -- Include block prefix (this operation overwrites storage.warp_prefixes[warps_no_ - 1])
  let p := get_block_prefix BlockSize warp_size_
    (fun _ => r.storage.warp_prefixes (warps_no_ BlockSize warp_size_ - 1))
    prefix_callback_op r.storage
  { output := fun flat_tid => scan_op (p.output flat_tid) (r.output flat_tid)
    calls := p.calls
    storage := p.storage }

/-- `inclusive_scan(input[ItemsPerThread], output[ItemsPerThread], storage, scan_op)`
(lines 142-173). -/
def inclusive_scan_items (BlockSize warp_size_ ItemsPerThread : Nat) (scan_op : T → T → T)
    (input : Nat → Nat → T) (uninit : Nat → T) (storage : storage_type T) :
    scan_state (Nat → Nat → T) T :=
  -- Reduce thread items
  let thread_input : Nat → T := fun flat_tid =>
    reduce_items scan_op (input flat_tid) (ItemsPerThread - 1)
  -- Scan of reduced values to get prefixes
  let r := exclusive_scan_impl_no_init BlockSize warp_size_ scan_op thread_input uninit storage
  -- Include prefix (first thread does not have prefix), final thread-local scan
  { output := fun flat_tid =>
      inclusive_items scan_op (input flat_tid)
        (if flat_tid = 0 then input flat_tid 0
         else scan_op (r.output flat_tid) (input flat_tid 0))
    storage := r.storage }

/-- `inclusive_scan(input[ItemsPerThread], output[ItemsPerThread], reduction, storage,
scan_op)` (lines 184-194). -/
def inclusive_scan_items_reduction (BlockSize warp_size_ ItemsPerThread : Nat)
    (scan_op : T → T → T) (input : Nat → Nat → T) (uninit : Nat → T)
    (storage : storage_type T) : reduction_state (Nat → Nat → T) T :=
  let r := inclusive_scan_items BlockSize warp_size_ ItemsPerThread scan_op input uninit storage
  -- Save reduction result
  { output := r.output
    reduction := fun _ => r.storage.warp_prefixes (warps_no_ BlockSize warp_size_ - 1)
    storage := r.storage }

/-- `inclusive_scan(input[ItemsPerThread], output[ItemsPerThread], prefix_callback_op,
storage, scan_op)` (lines 206-251). -/
def inclusive_scan_items_callback (BlockSize warp_size_ ItemsPerThread : Nat)
    (scan_op : T → T → T) (input : Nat → Nat → T) (prefix_callback_op : Nat → T → T)
    (uninit : Nat → T) (storage : storage_type T) : callback_state (Nat → Nat → T) T :=
  -- Reduce thread items
  let thread_input : Nat → T := fun flat_tid =>
    reduce_items scan_op (input flat_tid) (ItemsPerThread - 1)
  -- Scan of reduced values to get prefixes
  let r := exclusive_scan_impl_no_init BlockSize warp_size_ scan_op thread_input uninit storage
  -- this operation overwrites storage.warp_prefixes[warps_no_ - 1]
  let p := get_block_prefix BlockSize warp_size_
    (fun _ => r.storage.warp_prefixes (warps_no_ BlockSize warp_size_ - 1))
    prefix_callback_op r.storage
  -- Include prefix (first thread does not have prefix), include block prefix,
  -- final thread-local scan
  { output := fun flat_tid =>
      inclusive_items scan_op (input flat_tid)
        (scan_op (p.output flat_tid)
          (if flat_tid = 0 then input flat_tid 0
           else scan_op (r.output flat_tid) (input flat_tid 0)))
    calls := p.calls
    storage := p.storage }

/-- `exclusive_scan(input, output, init, storage, scan_op)` (lines 253-264). -/
def exclusive_scan (BlockSize warp_size_ : Nat) (scan_op : T → T → T)
    (input : Nat → T) (init : T) (storage : storage_type T) : scan_state (Nat → T) T :=
  exclusive_scan_impl BlockSize warp_size_ scan_op input init storage

/-- `exclusive_scan(input, output, init, reduction, storage, scan_op)`
(lines 278-291). -/
def exclusive_scan_reduction (BlockSize warp_size_ : Nat) (scan_op : T → T → T)
    (input : Nat → T) (init : T) (storage : storage_type T) : reduction_state (Nat → T) T :=
  let r := exclusive_scan BlockSize warp_size_ scan_op input init storage
  -- Save reduction result
  { output := r.output
    reduction := fun _ => r.storage.warp_prefixes (warps_no_ BlockSize warp_size_ - 1)
    storage := r.storage }

/-- `exclusive_scan(input, output, prefix_callback_op, storage, scan_op)`
(lines 306-325). -/
def exclusive_scan_callback (BlockSize warp_size_ : Nat) (scan_op : T → T → T)
    (input : Nat → T) (prefix_callback_op : Nat → T → T) (uninit : Nat → T)
    (storage : storage_type T) : callback_state (Nat → T) T :=
  let r := exclusive_scan_impl_no_init BlockSize warp_size_ scan_op input uninit storage
  -- Include block prefix (this operation overwrites storage.warp_prefixes[warps_no_ - 1])
  let p := get_block_prefix BlockSize warp_size_
    (fun _ => r.storage.warp_prefixes (warps_no_ BlockSize warp_size_ - 1))
    prefix_callback_op r.storage
  { output := fun flat_tid =>
      if flat_tid = 0 then p.output flat_tid
      else scan_op (p.output flat_tid) (r.output flat_tid)
    calls := p.calls
    storage := p.storage }

/-- `exclusive_scan(input[ItemsPerThread], output[ItemsPerThread], init, storage,
scan_op)` (lines 327-363). -/
def exclusive_scan_items (BlockSize warp_size_ ItemsPerThread : Nat) (scan_op : T → T → T)
    (input : Nat → Nat → T) (init : T) (storage : storage_type T) :
    scan_state (Nat → Nat → T) T :=
  -- Reduce thread items
  let thread_input : Nat → T := fun flat_tid =>
    reduce_items scan_op (input flat_tid) (ItemsPerThread - 1)
  -- Scan of reduced values to get prefixes
  let r := exclusive_scan_impl BlockSize warp_size_ scan_op thread_input init storage
  -- Include init value
  { output := fun flat_tid =>
      exclusive_items scan_op (input flat_tid)
        (if flat_tid = 0 then init else r.output flat_tid)
    storage := r.storage }

/-- `exclusive_scan(input[ItemsPerThread], output[ItemsPerThread], init, reduction,
storage, scan_op)` (lines 375-386). -/
def exclusive_scan_items_reduction (BlockSize warp_size_ ItemsPerThread : Nat)
    (scan_op : T → T → T) (input : Nat → Nat → T) (init : T) (storage : storage_type T) :
    reduction_state (Nat → Nat → T) T :=
  let r := exclusive_scan_items BlockSize warp_size_ ItemsPerThread scan_op input init storage
  -- Save reduction result
  { output := r.output
    reduction := fun _ => r.storage.warp_prefixes (warps_no_ BlockSize warp_size_ - 1)
    storage := r.storage }

/-- `exclusive_scan(input[ItemsPerThread], output[ItemsPerThread], prefix_callback_op,
storage, scan_op)` (lines 399-445). -/
def exclusive_scan_items_callback (BlockSize warp_size_ ItemsPerThread : Nat)
    (scan_op : T → T → T) (input : Nat → Nat → T) (prefix_callback_op : Nat → T → T)
    (uninit : Nat → T) (storage : storage_type T) : callback_state (Nat → Nat → T) T :=
  -- Reduce thread items
  let thread_input : Nat → T := fun flat_tid =>
    reduce_items scan_op (input flat_tid) (ItemsPerThread - 1)
  -- Scan of reduced values to get prefixes
  let r := exclusive_scan_impl_no_init BlockSize warp_size_ scan_op thread_input uninit storage
  -- this operation overwrites storage.warp_prefixes[warps_no_ - 1]
  let p := get_block_prefix BlockSize warp_size_
    (fun _ => r.storage.warp_prefixes (warps_no_ BlockSize warp_size_ - 1))
    prefix_callback_op r.storage
  -- Include init value and block prefix
  { output := fun flat_tid =>
      exclusive_items scan_op (input flat_tid)
        (if flat_tid = 0 then p.output flat_tid
         else scan_op (p.output flat_tid) (r.output flat_tid))
    calls := p.calls
    storage := p.storage }


/-! ## Auxiliary views of the code, used to state properties of single steps -/

/-- The first phase of `calculate_warp_prefixes` alone (lines 544-550): the storage
when the block reaches the first barrier. -/
def save_warp_reductions (BlockSize warp_size_ : Nat) (inclusive_input : Nat → T)
    (storage : storage_type T) : storage_type T :=
  for_each_thread BlockSize (fun flat_tid st =>
    if flat_tid = min ((warp_id warp_size_ flat_tid + 1) * warp_size_) BlockSize - 1 then
      st.set (warp_id warp_size_ flat_tid) (inclusive_input flat_tid)
    else st) storage

/-- Value of an `unsigned int` expression: arithmetic modulo `2 ^ 32`. -/
def wrap32 (x : Nat) : Nat := x % 2 ^ 32

/-- The constant `warps_no_` computed in `unsigned int` arithmetic:
`(BlockSize + warp_size_ - 1) / warp_size_`. -/
def warps_no_wrap32 (BlockSize warp_size_ : Nat) : Nat :=
  wrap32 (wrap32 (BlockSize + warp_size_) + (2 ^ 32 - 1)) / warp_size_

/-- The index `::rocprim::min((warp_id+1) * warp_size_, BlockSize) - 1` of line 546
computed in `unsigned int` arithmetic. -/
def last_lane_wrap32 (BlockSize warp_size_ g : Nat) : Nat :=
  wrap32 (min (wrap32 (wrap32 (g + 1) * warp_size_)) BlockSize + (2 ^ 32 - 1))

/-! ## The events of one thread

The statements of one thread that touch the shared storage, call the callback or wait
at a barrier, in program order.  No branch of the code tests a value of type `T`: the
events of a thread depend on `BlockSize`, `warp_size_` and its `flat_tid` only. -/

/-- An event of one thread: a read or a write of `storage.warp_prefixes[slot]`, a call
of `prefix_callback_op`, or a `::rocprim::syncthreads()` at the given source line. -/
inductive event where
  | read (slot : Nat)
  | write (slot : Nat)
  | call
  | sync (line : Nat)
  deriving DecidableEq

/-- The source lines of the barriers among the events, in order. -/
def barriers : List event → List Nat
  | [] => []
  | event.sync line :: es => line :: barriers es
  | _ :: es => barriers es

/-- Events of thread `flat_tid` in `calculate_warp_prefixes` (lines 536-563). -/
def calculate_warp_prefixes_events (BlockSize warp_size_ flat_tid : Nat) : List event :=
  (if flat_tid = min ((warp_id warp_size_ flat_tid + 1) * warp_size_) BlockSize - 1 then
      [event.write (warp_id warp_size_ flat_tid)]
    else [])
  ++ [event.sync 550]
  ++ (if flat_tid < warps_no_ BlockSize warp_size_ then
      [event.read flat_tid, event.write flat_tid]
    else [])
  ++ [event.sync 562]

/-- Events of thread `flat_tid` in `inclusive_scan_impl` (lines 448-471). -/
def inclusive_scan_impl_events (BlockSize warp_size_ flat_tid : Nat) : List event :=
  calculate_warp_prefixes_events BlockSize warp_size_ flat_tid
  ++ (if warp_id warp_size_ flat_tid ≠ 0 then [event.read (warp_id warp_size_ flat_tid - 1)]
    else [])

/-- Events of thread `flat_tid` in `exclusive_scan_impl` with `init` (lines 473-504). -/
def exclusive_scan_impl_events (BlockSize warp_size_ flat_tid : Nat) : List event :=
  calculate_warp_prefixes_events BlockSize warp_size_ flat_tid
  ++ (if warp_id warp_size_ flat_tid ≠ 0 then [event.read (warp_id warp_size_ flat_tid - 1)]
    else [])

/-- Events of thread `flat_tid` in `exclusive_scan_impl` without `init`
(lines 506-534). -/
def exclusive_scan_impl_no_init_events (BlockSize warp_size_ flat_tid : Nat) : List event :=
  calculate_warp_prefixes_events BlockSize warp_size_ flat_tid
  ++ (if warp_id warp_size_ flat_tid ≠ 0 then [event.read (warp_id warp_size_ flat_tid - 1)]
    else [])

/-- Events of thread `flat_tid` in `get_block_prefix` (lines 565-584). -/
def get_block_prefix_events (BlockSize warp_size_ flat_tid : Nat) : List event :=
  (if warp_id warp_size_ flat_tid = 0 then
      [event.call]
      ++ (if flat_tid = 0 then [event.write (warps_no_ BlockSize warp_size_ - 1)] else [])
    else [])
  ++ [event.sync 582]
  ++ [event.read (warps_no_ BlockSize warp_size_ - 1)]

/-- Events of thread `flat_tid` in the overloads that end with
`reduction = storage.warp_prefixes[warps_no_ - 1]`, after the events `scan` of the scan
they call. -/
def with_reduction_events (BlockSize warp_size_ : Nat) (scan : List event) : List event :=
  scan ++ [event.read (warps_no_ BlockSize warp_size_ - 1)]

/-- Events of thread `flat_tid` in the overloads with a `PrefixCallback`, after the
events `scan` of the scan they call: the argument `storage.warp_prefixes[warps_no_ - 1]`
is read, then `get_block_prefix` runs. -/
def with_callback_events (BlockSize warp_size_ flat_tid : Nat) (scan : List event) :
    List event :=
  scan ++ [event.read (warps_no_ BlockSize warp_size_ - 1)]
  ++ get_block_prefix_events BlockSize warp_size_ flat_tid

/-- Events of thread `flat_tid` in `inclusive_scan` (lines 80-90). -/
def inclusive_scan_events (BlockSize warp_size_ flat_tid : Nat) : List event :=
  inclusive_scan_impl_events BlockSize warp_size_ flat_tid

/-- Events of thread `flat_tid` in `inclusive_scan` with reduction (lines 101-111). -/
def inclusive_scan_reduction_events (BlockSize warp_size_ flat_tid : Nat) : List event :=
  with_reduction_events BlockSize warp_size_
    (inclusive_scan_events BlockSize warp_size_ flat_tid)

/-- Events of thread `flat_tid` in `inclusive_scan` with callback (lines 123-140). -/
def inclusive_scan_callback_events (BlockSize warp_size_ flat_tid : Nat) : List event :=
  with_callback_events BlockSize warp_size_ flat_tid
    (inclusive_scan_impl_events BlockSize warp_size_ flat_tid)

/-- Events of thread `flat_tid` in the multi-item `inclusive_scan` (lines 142-173); the
loops over the items of the thread touch registers only. -/
def inclusive_scan_items_events (BlockSize warp_size_ flat_tid : Nat) : List event :=
  exclusive_scan_impl_no_init_events BlockSize warp_size_ flat_tid

/-- Events of thread `flat_tid` in the multi-item `inclusive_scan` with reduction
(lines 184-194). -/
def inclusive_scan_items_reduction_events (BlockSize warp_size_ flat_tid : Nat) :
    List event :=
  with_reduction_events BlockSize warp_size_
    (inclusive_scan_items_events BlockSize warp_size_ flat_tid)

/-- Events of thread `flat_tid` in the multi-item `inclusive_scan` with callback
(lines 206-251). -/
def inclusive_scan_items_callback_events (BlockSize warp_size_ flat_tid : Nat) :
    List event :=
  with_callback_events BlockSize warp_size_ flat_tid
    (exclusive_scan_impl_no_init_events BlockSize warp_size_ flat_tid)

/-- Events of thread `flat_tid` in `exclusive_scan` with `init` (lines 253-264). -/
def exclusive_scan_events (BlockSize warp_size_ flat_tid : Nat) : List event :=
  exclusive_scan_impl_events BlockSize warp_size_ flat_tid

/-- Events of thread `flat_tid` in `exclusive_scan` with `init` and reduction
(lines 278-291). -/
def exclusive_scan_reduction_events (BlockSize warp_size_ flat_tid : Nat) : List event :=
  with_reduction_events BlockSize warp_size_
    (exclusive_scan_events BlockSize warp_size_ flat_tid)

/-- Events of thread `flat_tid` in `exclusive_scan` with callback (lines 306-325). -/
def exclusive_scan_callback_events (BlockSize warp_size_ flat_tid : Nat) : List event :=
  with_callback_events BlockSize warp_size_ flat_tid
    (exclusive_scan_impl_no_init_events BlockSize warp_size_ flat_tid)

/-- Events of thread `flat_tid` in the multi-item `exclusive_scan` with `init`
(lines 327-363). -/
def exclusive_scan_items_events (BlockSize warp_size_ flat_tid : Nat) : List event :=
  exclusive_scan_impl_events BlockSize warp_size_ flat_tid

/-- Events of thread `flat_tid` in the multi-item `exclusive_scan` with `init` and
reduction (lines 375-386). -/
def exclusive_scan_items_reduction_events (BlockSize warp_size_ flat_tid : Nat) :
    List event :=
  with_reduction_events BlockSize warp_size_
    (exclusive_scan_items_events BlockSize warp_size_ flat_tid)

/-- Events of thread `flat_tid` in the multi-item `exclusive_scan` with callback
(lines 399-445). -/
def exclusive_scan_items_callback_events (BlockSize warp_size_ flat_tid : Nat) :
    List event :=
  with_callback_events BlockSize warp_size_ flat_tid
    (exclusive_scan_impl_no_init_events BlockSize warp_size_ flat_tid)

/-- The slots of `storage.warp_prefixes` read or written among the events, in order. -/
def accessed_slots : List event → List Nat
  | [] => []
  | event.read slot :: es => slot :: accessed_slots es
  | event.write slot :: es => slot :: accessed_slots es
  | _ :: es => accessed_slots es

/-- The events that precede the barrier of the given source line. -/
def before_barrier (line : Nat) : List event → List event
  | [] => []
  | e :: es => if e = event.sync line then [] else e :: before_barrier line es

/-! ## Lemmas on the sequential folds -/

theorem fold_from_congr (scan_op : T → T → T) (v w : Nat → T) (base n : Nat)
    (h : ∀ i, i ≤ n → v (base + i) = w (base + i)) :
    fold_from scan_op v base n = fold_from scan_op w base n := by
  induction n with
  | zero => simpa [fold_from] using h 0 (Nat.le_refl 0)
  | succ n ih =>
    simp only [fold_from]
    rw [ih (fun i hi => h i (Nat.le_succ_of_le hi)), h (n + 1) (Nat.le_refl _)]

theorem fold_from_split (scan_op : T → T → T)
    (assoc : ∀ a b c, scan_op (scan_op a b) c = scan_op a (scan_op b c))
    (v : Nat → T) (base m n : Nat) :
    fold_from scan_op v base (m + 1 + n)
      = scan_op (fold_from scan_op v base m) (fold_from scan_op v (base + m + 1) n) := by
  induction n with
  | zero => simp [fold_from, Nat.add_assoc]
  | succ n ih =>
    have e : m + 1 + (n + 1) = (m + 1 + n) + 1 := by omega
    rw [e]
    simp only [fold_from]
    rw [ih, assoc]
    have e2 : base + (m + 1 + n + 1) = base + m + 1 + (n + 1) := by omega
    rw [e2]

theorem reference_inclusive_succ (scan_op : T → T → T) (v : Nat → T) (i : Nat) :
    reference_inclusive scan_op v (i + 1)
      = scan_op (reference_inclusive scan_op v i) (v (i + 1)) := by
  simp [reference_inclusive, List.range_succ, List.foldl_append]

theorem reference_inclusive_eq_fold_from (scan_op : T → T → T) (v : Nat → T) (i : Nat) :
    reference_inclusive scan_op v i = fold_from scan_op v 0 i := by
  induction i with
  | zero => simp [reference_inclusive, fold_from]
  | succ i ih => rw [reference_inclusive_succ, ih]; simp [fold_from]

theorem reference_exclusive_succ (scan_op : T → T → T) (init : T) (v : Nat → T) (i : Nat) :
    reference_exclusive scan_op init v (i + 1)
      = scan_op (reference_exclusive scan_op init v i) (v i) := by
  simp [reference_exclusive, List.range_succ, List.foldl_append]

theorem reference_exclusive_succ_eq (scan_op : T → T → T)
    (assoc : ∀ a b c, scan_op (scan_op a b) c = scan_op a (scan_op b c))
    (init : T) (v : Nat → T) (i : Nat) :
    reference_exclusive scan_op init v (i + 1)
      = scan_op init (fold_from scan_op v 0 i) := by
  induction i with
  | zero => rw [reference_exclusive_succ]; simp [reference_exclusive, fold_from]
  | succ i ih => rw [reference_exclusive_succ, ih, assoc]; simp [fold_from]

/-! ## Lemmas on the configuration -/

theorem next_power_of_two_loop_ge (x : Nat) :
    ∀ fuel acc, x ≤ acc * 2 ^ fuel → 0 < acc → x ≤ next_power_of_two_loop x fuel acc := by
  intro fuel
  induction fuel with
  | zero => intro acc h _; simpa [next_power_of_two_loop] using h
  | succ fuel ih =>
    intro acc h hpos
    simp only [next_power_of_two_loop]
    split
    · assumption
    · apply ih
      · rw [Nat.pow_succ] at h
        calc x ≤ acc * (2 ^ fuel * 2) := h
          _ = 2 * acc * 2 ^ fuel := by ring
      · omega

theorem le_next_power_of_two (x : Nat) : x ≤ next_power_of_two x := by
  apply next_power_of_two_loop_ge
  · simpa using (Nat.lt_two_pow x).le
  · exact Nat.one_pos

theorem lt_warps_no_iff (BlockSize warp_size_ g : Nat) (hW : 0 < warp_size_) :
    g < warps_no_ BlockSize warp_size_ ↔ g * warp_size_ < BlockSize := by
  unfold warps_no_
  rw [Nat.lt_iff_add_one_le, Nat.le_div_iff_mul_le hW, Nat.add_mul]
  omega

theorem warps_no_le (BlockSize warp_size_ : Nat) (hW : 0 < warp_size_) :
    warps_no_ BlockSize warp_size_ ≤ BlockSize := by
  by_contra h
  have h1 : BlockSize < warps_no_ BlockSize warp_size_ := by omega
  rw [lt_warps_no_iff _ _ _ hW] at h1
  have : BlockSize * 1 ≤ BlockSize * warp_size_ := Nat.mul_le_mul_left _ hW
  omega

theorem warps_no_pos (BlockSize warp_size_ : Nat) (hW : 0 < warp_size_) (hB : 0 < BlockSize) :
    0 < warps_no_ BlockSize warp_size_ := by
  rw [lt_warps_no_iff _ _ _ hW]; simpa using hB


/-! ## The warp-prefix aggregation -/

theorem for_each_thread_succ {σ : Type} (n : Nat) (body : Nat → σ → σ) (s : σ) :
    for_each_thread (n + 1) body s = body n (for_each_thread n body s) := by
  simp [for_each_thread, List.range_succ, List.foldl_append]

theorem last_lane_bounds (BlockSize warp_size_ g : Nat) (hW : 0 < warp_size_)
    (hg : g * warp_size_ < BlockSize) :
    g * warp_size_ ≤ last_lane BlockSize warp_size_ g
      ∧ last_lane BlockSize warp_size_ g < (g + 1) * warp_size_
      ∧ last_lane BlockSize warp_size_ g < BlockSize := by
  unfold last_lane
  rw [Nat.add_mul]
  omega

theorem div_eq_of_bounds (W g t : Nat) (h1 : g * W ≤ t) (h2 : t < (g + 1) * W) :
    t / W = g := by
  have hW : 0 < W := by
    rcases Nat.eq_zero_or_pos W with h | h
    · subst h; simp at h2
    · exact h
  apply Nat.div_eq_of_lt_le
  · exact h1
  · exact h2

theorem mod_eq_of_bounds (W g t : Nat) (h1 : g * W ≤ t) (h2 : t < (g + 1) * W) :
    t % W = t - g * W := by
  have hd := div_eq_of_bounds W g t h1 h2
  have := Nat.div_add_mod t W
  rw [hd, Nat.mul_comm] at this
  omega

theorem last_lane_div (BlockSize warp_size_ g : Nat) (hW : 0 < warp_size_)
    (hg : g * warp_size_ < BlockSize) :
    last_lane BlockSize warp_size_ g / warp_size_ = g := by
  obtain ⟨h1, h2, _⟩ := last_lane_bounds BlockSize warp_size_ g hW hg
  exact div_eq_of_bounds _ _ _ h1 h2

theorem div_mul_le_self (W t : Nat) : t / W * W ≤ t := Nat.div_mul_le_self t W

theorem lt_div_succ_mul (W t : Nat) (hW : 0 < W) : t < (t / W + 1) * W := by
  have := Nat.lt_div_mul_add (a := t) hW
  rw [Nat.add_mul]; omega

theorem writes_total_iff (BlockSize warp_size_ g t : Nat) (hW : 0 < warp_size_)
    (hg : g * warp_size_ < BlockSize) :
    (t = min ((warp_id warp_size_ t + 1) * warp_size_) BlockSize - 1 ∧ warp_id warp_size_ t = g)
      ↔ t = last_lane BlockSize warp_size_ g := by
  constructor
  · rintro ⟨h1, h2⟩
    rw [h2] at h1
    exact h1
  · intro h
    have hd := last_lane_div BlockSize warp_size_ g hW hg
    rw [← h] at hd
    unfold warp_id
    rw [hd]
    exact ⟨h, rfl⟩


theorem warp_prefixes_set (storage : storage_type T) (i j : Nat) (x : T) :
    (storage.set i x).warp_prefixes j = if j = i then x else storage.warp_prefixes j := rfl

theorem save_warp_reductions_slot (BlockSize warp_size_ : Nat) (inclusive_input : Nat → T)
    (storage : storage_type T) (hW : 0 < warp_size_) (n : Nat) (hn : n ≤ BlockSize) (g : Nat) :
    (for_each_thread n (fun flat_tid st =>
      if flat_tid = min ((warp_id warp_size_ flat_tid + 1) * warp_size_) BlockSize - 1 then
        st.set (warp_id warp_size_ flat_tid) (inclusive_input flat_tid)
      else st) storage).warp_prefixes g
      = if g * warp_size_ < BlockSize ∧ last_lane BlockSize warp_size_ g < n then
          inclusive_input (last_lane BlockSize warp_size_ g)
        else storage.warp_prefixes g := by
  induction n with
  | zero => simp [for_each_thread]
  | succ n ih =>
    rw [for_each_thread_succ]
    have ih := ih (Nat.le_of_succ_le hn)
    have hnB : n < BlockSize := hn
    by_cases hg : g * warp_size_ < BlockSize
    · have hiff := writes_total_iff BlockSize warp_size_ g n hW hg
      by_cases hlast : n = last_lane BlockSize warp_size_ g
      · obtain ⟨hw1, hw2⟩ := hiff.mpr hlast
        rw [if_pos hw1, warp_prefixes_set, if_pos hw2.symm]
        rw [if_pos ⟨hg, by omega⟩, ← hlast]
      · have hnot : ¬ (n = min ((warp_id warp_size_ n + 1) * warp_size_) BlockSize - 1
            ∧ warp_id warp_size_ n = g) := fun h => hlast (hiff.mp h)
        have hcond : (g * warp_size_ < BlockSize ∧ last_lane BlockSize warp_size_ g < n + 1)
            ↔ (g * warp_size_ < BlockSize ∧ last_lane BlockSize warp_size_ g < n) := by
          constructor
          · rintro ⟨a, b⟩; exact ⟨a, by omega⟩
          · rintro ⟨a, b⟩; exact ⟨a, by omega⟩
        rw [if_congr hcond rfl rfl, ← ih]
        split
        · rename_i hw
          have hne : g ≠ warp_id warp_size_ n := fun e => hnot ⟨hw, e.symm⟩
          rw [warp_prefixes_set, if_neg hne]
        · rfl
    · have hcond : ¬ (g * warp_size_ < BlockSize ∧ last_lane BlockSize warp_size_ g < n + 1) :=
        fun h => hg h.1
      have hcond2 : ¬ (g * warp_size_ < BlockSize ∧ last_lane BlockSize warp_size_ g < n) :=
        fun h => hg h.1
      rw [if_neg hcond]
      rw [if_neg hcond2] at ih
      split
      · have hne : g ≠ warp_id warp_size_ n := by
          intro e
          apply hg
          rw [e]
          exact Nat.lt_of_le_of_lt (Nat.div_mul_le_self n warp_size_) hnB
        rw [warp_prefixes_set, if_neg hne, ih]
      · exact ih

theorem store_scanned_slot (n k : Nat) (val : Nat → T) (storage : storage_type T) (g : Nat) :
    (for_each_thread n (fun flat_tid st =>
      if flat_tid < k then st.set flat_tid (val flat_tid) else st) storage).warp_prefixes g
      = if g < n ∧ g < k then val g else storage.warp_prefixes g := by
  induction n with
  | zero => simp [for_each_thread]
  | succ n ih =>
    rw [for_each_thread_succ]
    by_cases hk : n < k
    · rw [if_pos hk]
      by_cases hgn : g = n
      · subst hgn
        rw [warp_prefixes_set, if_pos rfl, if_pos ⟨Nat.lt_succ_self _, hk⟩]
      · rw [warp_prefixes_set, if_neg hgn, ih]
        have hcond : (g < n + 1 ∧ g < k) ↔ (g < n ∧ g < k) := by
          constructor
          · rintro ⟨a, b⟩; exact ⟨by omega, b⟩
          · rintro ⟨a, b⟩; exact ⟨by omega, b⟩
        rw [if_congr hcond rfl rfl]
    · rw [if_neg hk, ih]
      have hcond : (g < n + 1 ∧ g < k) ↔ (g < n ∧ g < k) := by
        constructor
        · rintro ⟨a, b⟩; exact ⟨by omega, b⟩
        · rintro ⟨a, b⟩; exact ⟨by omega, b⟩
      rw [if_congr hcond rfl rfl]

theorem warp_scan_of_lane (WarpSize g t : Nat) (scan_op : T → T → T) (input : Nat → T)
    (h1 : g * WarpSize ≤ t) (h2 : t < (g + 1) * WarpSize) :
    warp_scan_shuffle_inclusive_scan WarpSize scan_op input t
      = fold_from scan_op input (g * WarpSize) (t - g * WarpSize) := by
  unfold warp_scan_shuffle_inclusive_scan
  rw [mod_eq_of_bounds WarpSize g t h1 h2]
  congr 1
  omega

/-- The group totals folded together give the fold over all threads up to the last
lane of the group. -/
theorem fold_group_totals (BlockSize warp_size_ : Nat) (scan_op : T → T → T)
    (assoc : ∀ a b c, scan_op (scan_op a b) c = scan_op a (scan_op b c))
    (input : Nat → T) (hW : 0 < warp_size_) (g : Nat) (hg : g * warp_size_ < BlockSize) :
    fold_from scan_op (fun h => fold_from scan_op input (h * warp_size_)
        (last_lane BlockSize warp_size_ h - h * warp_size_)) 0 g
      = fold_from scan_op input 0 (last_lane BlockSize warp_size_ g) := by
  induction g with
  | zero => simp [fold_from]
  | succ g ih =>
    have hg1 : (g + 1) * warp_size_ < BlockSize := hg
    have hg0 : g * warp_size_ < BlockSize := by rw [Nat.add_mul] at hg1; omega
    simp only [fold_from]
    rw [ih hg0]
    have hl : last_lane BlockSize warp_size_ g = (g + 1) * warp_size_ - 1 := by
      unfold last_lane; omega
    obtain ⟨b1, b2, _⟩ := last_lane_bounds BlockSize warp_size_ (g + 1) hW hg
    have hpos : 0 < (g + 1) * warp_size_ := Nat.mul_pos (Nat.succ_pos g) hW
    have hsplit := fold_from_split scan_op assoc input 0 ((g + 1) * warp_size_ - 1)
      (last_lane BlockSize warp_size_ (g + 1) - (g + 1) * warp_size_)
    have e1 : (g + 1) * warp_size_ - 1 + 1
        + (last_lane BlockSize warp_size_ (g + 1) - (g + 1) * warp_size_)
        = last_lane BlockSize warp_size_ (g + 1) := by omega
    have e2 : 0 + ((g + 1) * warp_size_ - 1) + 1 = (g + 1) * warp_size_ := by omega
    rw [e1, e2] at hsplit
    rw [hsplit, hl]
    simp

/-- Content of the shared storage after `calculate_warp_prefixes`, when the
per-thread input is the result of the warp scan of `input`. -/
theorem calculate_warp_prefixes_slot (BlockSize warp_size_ : Nat) (scan_op : T → T → T)
    (assoc : ∀ a b c, scan_op (scan_op a b) c = scan_op a (scan_op b c))
    (input : Nat → T) (storage : storage_type T) (hW : 0 < warp_size_)
    (g : Nat) (hg : g * warp_size_ < BlockSize) :
    (calculate_warp_prefixes BlockSize warp_size_ scan_op
      (warp_scan_shuffle_inclusive_scan warp_size_ scan_op input) storage).warp_prefixes g
      = fold_from scan_op input 0 (last_lane BlockSize warp_size_ g) := by
  have hgw : g < warps_no_ BlockSize warp_size_ := (lt_warps_no_iff _ _ _ hW).mpr hg
  have hgB : g < BlockSize := Nat.lt_of_lt_of_le hgw (warps_no_le _ _ hW)
  unfold calculate_warp_prefixes
  simp only
  rw [store_scanned_slot, if_pos ⟨hgB, hgw⟩]
  have hN : g < next_power_of_two (warps_no_ BlockSize warp_size_) :=
    Nat.lt_of_lt_of_le hgw (le_next_power_of_two _)
  unfold warp_scan_shuffle_inclusive_scan
  rw [Nat.mod_eq_of_lt hN, Nat.sub_self]
  rw [← fold_group_totals BlockSize warp_size_ scan_op assoc input hW g hg]
  apply fold_from_congr
  intro h hh
  simp only [Nat.zero_add]
  have hhw : h * warp_size_ < BlockSize :=
    Nat.lt_of_le_of_lt (Nat.mul_le_mul_right _ hh) hg
  rw [save_warp_reductions_slot BlockSize warp_size_ _ storage hW BlockSize (Nat.le_refl _) h]
  obtain ⟨b1, b2, b3⟩ := last_lane_bounds BlockSize warp_size_ h hW hhw
  rw [if_pos ⟨hhw, b3⟩]
  exact warp_scan_of_lane warp_size_ h _ scan_op input b1 b2


/-! ## The three block-level scans -/

theorem warp_bounds (W t : Nat) (hW : 0 < W) :
    warp_id W t * W ≤ t ∧ t < (warp_id W t + 1) * W :=
  ⟨Nat.div_mul_le_self t W, lt_div_succ_mul W t hW⟩

theorem last_lane_of_full (BlockSize warp_size_ g : Nat)
    (h : (g + 1) * warp_size_ ≤ BlockSize) :
    last_lane BlockSize warp_size_ g = (g + 1) * warp_size_ - 1 := by
  unfold last_lane; omega

/-- The stored prefix of the previous groups combined with the warp-scan result of a
thread is the fold over all threads up to that thread. -/
theorem combine_prefix (BlockSize warp_size_ : Nat) (scan_op : T → T → T)
    (assoc : ∀ a b c, scan_op (scan_op a b) c = scan_op a (scan_op b c))
    (input : Nat → T) (storage : storage_type T) (hW : 0 < warp_size_)
    (t : Nat) (ht : t < BlockSize) (hg : warp_id warp_size_ t ≠ 0) :
    scan_op
      ((calculate_warp_prefixes BlockSize warp_size_ scan_op
        (warp_scan_shuffle_inclusive_scan warp_size_ scan_op input) storage).warp_prefixes
          (warp_id warp_size_ t - 1))
      (warp_scan_shuffle_inclusive_scan warp_size_ scan_op input t)
      = fold_from scan_op input 0 t := by
  obtain ⟨b1, b2⟩ := warp_bounds warp_size_ t hW
  generalize warp_id warp_size_ t = g at *
  obtain ⟨g, rfl⟩ := Nat.exists_eq_succ_of_ne_zero hg
  simp only [Nat.succ_eq_add_one, Nat.add_sub_cancel] at *
  have hfull : (g + 1) * warp_size_ ≤ BlockSize := by omega
  have hg0 : g * warp_size_ < BlockSize := by rw [Nat.add_mul] at hfull; omega
  rw [calculate_warp_prefixes_slot BlockSize warp_size_ scan_op assoc input storage hW g hg0,
    last_lane_of_full _ _ _ hfull, warp_scan_of_lane warp_size_ (g + 1) t scan_op input b1 b2]
  have hpos : 0 < (g + 1) * warp_size_ := Nat.mul_pos (Nat.succ_pos g) hW
  have hsplit := fold_from_split scan_op assoc input 0 ((g + 1) * warp_size_ - 1)
    (t - (g + 1) * warp_size_)
  have e1 : (g + 1) * warp_size_ - 1 + 1 + (t - (g + 1) * warp_size_) = t := by omega
  have e2 : 0 + ((g + 1) * warp_size_ - 1) + 1 = (g + 1) * warp_size_ := by omega
  rw [e1, e2] at hsplit
  exact hsplit.symm

theorem warp_scan_first_warp (warp_size_ : Nat) (scan_op : T → T → T) (input : Nat → T)
    (t : Nat) (hg : warp_id warp_size_ t = 0) (hW : 0 < warp_size_) :
    warp_scan_shuffle_inclusive_scan warp_size_ scan_op input t = fold_from scan_op input 0 t := by
  obtain ⟨b1, b2⟩ := warp_bounds warp_size_ t hW
  rw [hg] at b1 b2
  rw [warp_scan_of_lane warp_size_ 0 t scan_op input b1 b2]
  simp

theorem inclusive_scan_impl_output (BlockSize warp_size_ : Nat) (scan_op : T → T → T)
    (assoc : ∀ a b c, scan_op (scan_op a b) c = scan_op a (scan_op b c))
    (input : Nat → T) (storage : storage_type T) (hW : 0 < warp_size_)
    (t : Nat) (ht : t < BlockSize) :
    (inclusive_scan_impl BlockSize warp_size_ scan_op input storage).output t
      = fold_from scan_op input 0 t := by
  unfold inclusive_scan_impl
  simp only
  split
  · rename_i hg
    exact combine_prefix BlockSize warp_size_ scan_op assoc input storage hW t ht hg
  · rename_i hg
    exact warp_scan_first_warp warp_size_ scan_op input t (not_not.mp hg) hW

theorem inclusive_scan_impl_storage (BlockSize warp_size_ : Nat) (scan_op : T → T → T)
    (input : Nat → T) (storage : storage_type T) :
    (inclusive_scan_impl BlockSize warp_size_ scan_op input storage).storage
      = calculate_warp_prefixes BlockSize warp_size_ scan_op
          (warp_scan_shuffle_inclusive_scan warp_size_ scan_op input) storage := rfl

theorem exclusive_scan_impl_storage (BlockSize warp_size_ : Nat) (scan_op : T → T → T)
    (input : Nat → T) (init : T) (storage : storage_type T) :
    (exclusive_scan_impl BlockSize warp_size_ scan_op input init storage).storage
      = calculate_warp_prefixes BlockSize warp_size_ scan_op
          (warp_scan_shuffle_inclusive_scan warp_size_ scan_op input) storage := rfl

theorem exclusive_scan_impl_no_init_storage (BlockSize warp_size_ : Nat) (scan_op : T → T → T)
    (input : Nat → T) (uninit : Nat → T) (storage : storage_type T) :
    (exclusive_scan_impl_no_init BlockSize warp_size_ scan_op input uninit storage).storage
      = calculate_warp_prefixes BlockSize warp_size_ scan_op
          (warp_scan_shuffle_inclusive_scan warp_size_ scan_op input) storage := rfl

/-- The slot `warps_no_ - 1` holds the fold over all threads of the block. -/
theorem block_reduction_slot (BlockSize warp_size_ : Nat) (scan_op : T → T → T)
    (assoc : ∀ a b c, scan_op (scan_op a b) c = scan_op a (scan_op b c))
    (input : Nat → T) (storage : storage_type T) (hW : 0 < warp_size_) (hB : 0 < BlockSize) :
    (calculate_warp_prefixes BlockSize warp_size_ scan_op
      (warp_scan_shuffle_inclusive_scan warp_size_ scan_op input) storage).warp_prefixes
        (warps_no_ BlockSize warp_size_ - 1)
      = fold_from scan_op input 0 (BlockSize - 1) := by
  have hpos := warps_no_pos BlockSize warp_size_ hW hB
  have hlt : warps_no_ BlockSize warp_size_ - 1 < warps_no_ BlockSize warp_size_ := by omega
  have hg := (lt_warps_no_iff _ _ _ hW).mp hlt
  rw [calculate_warp_prefixes_slot BlockSize warp_size_ scan_op assoc input storage hW _ hg]
  have hnot : ¬ (warps_no_ BlockSize warp_size_ < warps_no_ BlockSize warp_size_) :=
    Nat.lt_irrefl _
  rw [lt_warps_no_iff _ _ _ hW] at hnot
  have e : warps_no_ BlockSize warp_size_ - 1 + 1 = warps_no_ BlockSize warp_size_ := by omega
  unfold last_lane
  rw [e]
  congr 1
  omega

theorem pred_same_warp (W t : Nat) (hW : 0 < W) (hl : lane_id W t ≠ 0) :
    warp_id W (t - 1) = warp_id W t ∧ 0 < t ∧ ¬ (t % W < 1) := by
  unfold lane_id at hl
  unfold warp_id
  obtain ⟨b1, b2⟩ := warp_bounds W t hW
  unfold warp_id at b1 b2
  have hm := mod_eq_of_bounds W (t / W) t b1 b2
  have hlt : t / W * W < t := by omega
  refine ⟨div_eq_of_bounds W (t / W) (t - 1) (by omega) (by omega), by omega, by omega⟩

theorem first_lane_eq (W t : Nat) (hl : lane_id W t = 0) :
    t = warp_id W t * W := by
  unfold lane_id at hl
  unfold warp_id
  have := Nat.div_add_mod t W
  rw [hl, Nat.mul_comm] at this
  omega

theorem exclusive_scan_impl_output (BlockSize warp_size_ : Nat) (scan_op : T → T → T)
    (assoc : ∀ a b c, scan_op (scan_op a b) c = scan_op a (scan_op b c))
    (input : Nat → T) (init : T) (storage : storage_type T) (hW : 0 < warp_size_)
    (t : Nat) (ht : t < BlockSize) :
    (exclusive_scan_impl BlockSize warp_size_ scan_op input init storage).output t
      = reference_exclusive scan_op init input t := by
  unfold exclusive_scan_impl
  simp only
  by_cases hl : lane_id warp_size_ t = 0
  · rw [if_pos hl]
    have ht0 := first_lane_eq warp_size_ t hl
    by_cases hg : warp_id warp_size_ t = 0
    · rw [if_neg (not_not.mpr hg)]
      rw [hg] at ht0
      have : t = 0 := by omega
      subst this
      simp [reference_exclusive]
    · rw [if_pos hg]
      obtain ⟨g, hgs⟩ := Nat.exists_eq_succ_of_ne_zero hg
      rw [hgs] at ht0 ⊢
      simp only [Nat.succ_eq_add_one, Nat.add_sub_cancel] at *
      have hfull : (g + 1) * warp_size_ ≤ BlockSize := by omega
      have hg0 : g * warp_size_ < BlockSize := by rw [Nat.add_mul] at hfull; omega
      rw [calculate_warp_prefixes_slot BlockSize warp_size_ scan_op assoc input storage hW g hg0,
        last_lane_of_full _ _ _ hfull]
      have hpos : 0 < (g + 1) * warp_size_ := Nat.mul_pos (Nat.succ_pos g) hW
      have e : t = ((g + 1) * warp_size_ - 1) + 1 := by omega
      rw [e, reference_exclusive_succ_eq scan_op assoc]
  · rw [if_neg hl]
    obtain ⟨hw, hpos, hsh⟩ := pred_same_warp warp_size_ t hW hl
    unfold warp_shuffle_up
    rw [if_neg hsh]
    have e : t = (t - 1) + 1 := by omega
    have htp : t - 1 < BlockSize := by omega
    rw [e, reference_exclusive_succ_eq scan_op assoc]
    simp only [Nat.add_sub_cancel]
    by_cases hg : warp_id warp_size_ (t - 1) = 0
    · rw [if_neg (not_not.mpr hg), warp_scan_first_warp warp_size_ scan_op input _ hg hW]
    · rw [if_pos hg, assoc,
        combine_prefix BlockSize warp_size_ scan_op assoc input storage hW (t - 1) htp hg]

theorem exclusive_scan_impl_no_init_output (BlockSize warp_size_ : Nat) (scan_op : T → T → T)
    (assoc : ∀ a b c, scan_op (scan_op a b) c = scan_op a (scan_op b c))
    (input : Nat → T) (uninit : Nat → T) (storage : storage_type T) (hW : 0 < warp_size_)
    (t : Nat) (ht : t + 1 < BlockSize) :
    (exclusive_scan_impl_no_init BlockSize warp_size_ scan_op input uninit storage).output (t + 1)
      = fold_from scan_op input 0 t := by
  unfold exclusive_scan_impl_no_init
  simp only
  by_cases hl : lane_id warp_size_ (t + 1) = 0
  · rw [if_pos hl]
    have ht0 := first_lane_eq warp_size_ (t + 1) hl
    have hg : warp_id warp_size_ (t + 1) ≠ 0 := by
      intro h; rw [h] at ht0; omega
    rw [if_pos hg]
    obtain ⟨g, hgs⟩ := Nat.exists_eq_succ_of_ne_zero hg
    rw [hgs] at ht0 ⊢
    simp only [Nat.succ_eq_add_one, Nat.add_sub_cancel] at *
    have hfull : (g + 1) * warp_size_ ≤ BlockSize := by omega
    have hg0 : g * warp_size_ < BlockSize := by rw [Nat.add_mul] at hfull; omega
    rw [calculate_warp_prefixes_slot BlockSize warp_size_ scan_op assoc input storage hW g hg0,
      last_lane_of_full _ _ _ hfull]
    congr 1
    omega
  · rw [if_neg hl]
    obtain ⟨hw, hpos, hsh⟩ := pred_same_warp warp_size_ (t + 1) hW hl
    unfold warp_shuffle_up
    rw [if_neg hsh]
    simp only [Nat.add_sub_cancel] at *
    have htp : t < BlockSize := by omega
    by_cases hg : warp_id warp_size_ t = 0
    · rw [if_neg (not_not.mpr hg), warp_scan_first_warp warp_size_ scan_op input _ hg hW]
    · rw [if_pos hg, if_pos hg,
        combine_prefix BlockSize warp_size_ scan_op assoc input storage hW t htp hg]


/-! ## The block prefix obtained from the callback -/

theorem pow_two_pos (W : Nat) (hW : ∃ k, W = 2 ^ k) : 0 < W := by
  obtain ⟨k, rfl⟩ := hW
  exact Nat.pos_pow_of_pos k (by decide)

theorem warp_id_eq_zero_iff (W t : Nat) (hW : 0 < W) : warp_id W t = 0 ↔ t < W := by
  unfold warp_id
  rw [Nat.div_eq_zero_iff hW]

/-- State of `get_block_prefix` after the first `n` threads ran up to the barrier. -/
theorem get_block_prefix_threads (BlockSize warp_size_ : Nat) (reduction : Nat → T)
    (prefix_callback_op : Nat → T → T) (storage : storage_type T) (hW : 0 < warp_size_)
    (n : Nat) :
    for_each_thread n (fun flat_tid (st : prefix_state T) =>
      if warp_id warp_size_ flat_tid = 0 then
        let called : prefix_state T :=
          { calls := st.calls ++ [(flat_tid, reduction flat_tid)], storage := st.storage }
        if flat_tid = 0 then
          { calls := called.calls
            storage := called.storage.set (warps_no_ BlockSize warp_size_ - 1)
              (prefix_callback_op flat_tid (reduction flat_tid)) }
        else called
      else st) { calls := [], storage := storage }
      = { calls := (List.range (min warp_size_ n)).map (fun t => (t, reduction t))
          storage := if 0 < n then
              storage.set (warps_no_ BlockSize warp_size_ - 1) (prefix_callback_op 0 (reduction 0))
            else storage } := by
  induction n with
  | zero => simp [for_each_thread]
  | succ n ih =>
    rw [for_each_thread_succ, ih]
    by_cases hn : n < warp_size_
    · rw [if_pos ((warp_id_eq_zero_iff _ _ hW).mpr hn)]
      have e1 : min warp_size_ n = n := by omega
      have e2 : min warp_size_ (n + 1) = n + 1 := by omega
      rw [e1, e2]
      by_cases h0 : n = 0
      · subst h0; simp [List.range_succ]
      · have : 0 < n := Nat.pos_of_ne_zero h0
        simp [h0, this, List.range_succ]
    · rw [if_neg (fun h => hn ((warp_id_eq_zero_iff _ _ hW).mp h))]
      have e1 : min warp_size_ n = warp_size_ := by omega
      have e2 : min warp_size_ (n + 1) = warp_size_ := by omega
      have : 0 < n := by omega
      simp [e1, e2, this]

theorem get_block_prefix_calls (BlockSize warp_size_ : Nat) (reduction : Nat → T)
    (prefix_callback_op : Nat → T → T) (storage : storage_type T) (hW : 0 < warp_size_) :
    ( get_block_prefix BlockSize warp_size_ reduction prefix_callback_op storage).calls
      = (List.range (min warp_size_ BlockSize)).map (fun t => (t, reduction t)) := by
  unfold get_block_prefix
  simp only
  rw [get_block_prefix_threads BlockSize warp_size_ reduction prefix_callback_op storage hW]

theorem get_block_prefix_output (BlockSize warp_size_ : Nat) (reduction : Nat → T)
    (prefix_callback_op : Nat → T → T) (storage : storage_type T) (hW : 0 < warp_size_)
    (hB : 0 < BlockSize) (t : Nat) :
    ( get_block_prefix BlockSize warp_size_ reduction prefix_callback_op storage).output t
      = prefix_callback_op 0 (reduction 0) := by
  unfold get_block_prefix
  simp only
  rw [get_block_prefix_threads BlockSize warp_size_ reduction prefix_callback_op storage hW]
  simp [hB, warp_prefixes_set]


/-! ## Thread-local loops and the flattened order -/

theorem flatten_at (k : Nat) (input : Nat → Nat → T) (t j : Nat) (hj : j < k) :
    flatten k input (t * k + j) = input t j := by
  unfold flatten
  have hk : 0 < k := by omega
  have h1 : (t * k + j) / k = t := div_eq_of_bounds k t _ (by omega) (by rw [Nat.add_mul]; omega)
  have h2 : (t * k + j) % k = j := by
    rw [mod_eq_of_bounds k t _ (by omega) (by rw [Nat.add_mul]; omega)]; omega
  rw [h1, h2]

theorem reduce_items_eq (scan_op : T → T → T) (k : Nat) (input : Nat → Nat → T) (t j : Nat)
    (hj : j < k) :
    reduce_items scan_op (input t) j = fold_from scan_op (flatten k input) (t * k) j := by
  induction j with
  | zero => simp [reduce_items, fold_from]; rw [← flatten_at k input t 0 hj]; simp
  | succ j ih =>
    simp only [reduce_items, fold_from]
    rw [ih (by omega), flatten_at k input t (j + 1) hj]

/-- Folding the per-thread reductions of threads `0..t` is folding the flattened
items up to the last item of thread `t`. -/
theorem fold_thread_reductions (scan_op : T → T → T)
    (assoc : ∀ a b c, scan_op (scan_op a b) c = scan_op a (scan_op b c))
    (k : Nat) (hk : 0 < k) (input : Nat → Nat → T) (t : Nat) :
    fold_from scan_op (fun flat_tid => reduce_items scan_op (input flat_tid) (k - 1)) 0 t
      = fold_from scan_op (flatten k input) 0 (t * k + (k - 1)) := by
  induction t with
  | zero =>
    simp only [fold_from, Nat.zero_mul, Nat.zero_add]
    rw [reduce_items_eq scan_op k input 0 (k - 1) (by omega)]
    simp
  | succ t ih =>
    simp only [fold_from]
    rw [ih, Nat.zero_add, reduce_items_eq scan_op k input (t + 1) (k - 1) (by omega)]
    have hsplit := fold_from_split scan_op assoc (flatten k input) 0 (t * k + (k - 1)) (k - 1)
    have e1 : t * k + (k - 1) + 1 + (k - 1) = (t + 1) * k + (k - 1) := by
      rw [Nat.add_mul]; omega
    have e2 : 0 + (t * k + (k - 1)) + 1 = (t + 1) * k := by rw [Nat.add_mul]; omega
    rw [e1, e2] at hsplit
    exact hsplit.symm

theorem inclusive_items_eq (scan_op : T → T → T) (k : Nat) (input : Nat → Nat → T)
    (t : Nat) (first : T) (hfirst : first = fold_from scan_op (flatten k input) 0 (t * k))
    (j : Nat) (hj : j < k) :
    inclusive_items scan_op (input t) first j
      = fold_from scan_op (flatten k input) 0 (t * k + j) := by
  induction j with
  | zero => simpa [inclusive_items] using hfirst
  | succ j ih =>
    simp only [inclusive_items]
    rw [ih (by omega), ← Nat.add_assoc, ← flatten_at k input t (j + 1) hj]
    simp [fold_from, Nat.add_assoc]

theorem exclusive_items_loop_eq (scan_op : T → T → T) (k : Nat) (input : Nat → Nat → T)
    (t : Nat) (init first : T)
    (hfirst : first = reference_exclusive scan_op init (flatten k input) (t * k))
    (j : Nat) (hj : j < k) :
    exclusive_items_loop scan_op (input t) first j
      = (reference_exclusive scan_op init (flatten k input) (t * k + j), input t j) := by
  induction j with
  | zero => simp [exclusive_items_loop, hfirst]
  | succ j ih =>
    simp only [exclusive_items_loop]
    rw [ih (by omega), ← Nat.add_assoc, reference_exclusive_succ,
      flatten_at k input t j (by omega)]

theorem exclusive_items_eq (scan_op : T → T → T) (k : Nat) (input : Nat → Nat → T)
    (t : Nat) (init first : T)
    (hfirst : first = reference_exclusive scan_op init (flatten k input) (t * k))
    (j : Nat) (hj : j < k) :
    exclusive_items scan_op (input t) first j
      = reference_exclusive scan_op init (flatten k input) (t * k + j) := by
  unfold exclusive_items
  rw [exclusive_items_loop_eq scan_op k input t init first hfirst j hj]

/-- The exclusive reference scan over the per-thread reductions, taken at thread `t`,
is the exclusive reference scan over the flattened items, taken at `t * k`. -/
theorem reference_exclusive_threads (scan_op : T → T → T)
    (assoc : ∀ a b c, scan_op (scan_op a b) c = scan_op a (scan_op b c))
    (k : Nat) (hk : 0 < k) (input : Nat → Nat → T) (init : T) (t : Nat) :
    reference_exclusive scan_op init
        (fun flat_tid => reduce_items scan_op (input flat_tid) (k - 1)) t
      = reference_exclusive scan_op init (flatten k input) (t * k) := by
  cases t with
  | zero => simp [reference_exclusive]
  | succ t =>
    rw [reference_exclusive_succ_eq scan_op assoc,
      fold_thread_reductions scan_op assoc k hk input t]
    have e : (t + 1) * k = (t * k + (k - 1)) + 1 := by rw [Nat.add_mul]; omega
    rw [e, reference_exclusive_succ_eq scan_op assoc]


/-! ## Correctness of the single-value scans -/

/-- Claim C1: for every block size, every power-of-two lane-group size `warp_size_` and
every associative (not necessarily commutative) `scan_op`, the single-value
`inclusive_scan` gives each existing thread `i` the left fold of `scan_op` over the
inputs of threads `0..i` in thread order.  Nothing is assumed on the divisibility of
`BlockSize` by `warp_size_` nor on the number of lane-groups. -/
theorem inclusive_scan_correct (BlockSize warp_size_ : Nat) (scan_op : T → T → T)
    (input : Nat → T) (storage : storage_type T)
    (hW : ∃ k, warp_size_ = 2 ^ k)
    (assoc : ∀ a b c, scan_op (scan_op a b) c = scan_op a (scan_op b c))
    (i : Nat) (hi : i < BlockSize) :
    (inclusive_scan BlockSize warp_size_ scan_op input storage).output i
      = reference_inclusive scan_op input i := by
  unfold inclusive_scan
  rw [inclusive_scan_impl_output BlockSize warp_size_ scan_op assoc input storage
    (pow_two_pos _ hW) i hi, reference_inclusive_eq_fold_from]

/-- Instance of C1 with list concatenation (not commutative), `BlockSize = 5` and
`warp_size_ = 2`: three lane-groups, the last one partially populated. -/
theorem inclusive_scan_correct_witness :
    (inclusive_scan 5 2 List.append (fun i => [i]) ⟨fun _ => []⟩).output 4
      = [0, 1, 2, 3, 4] :=
  (inclusive_scan_correct 5 2 List.append (fun i => [i]) ⟨fun _ => []⟩ ⟨1, rfl⟩
    List.append_assoc 4 (by decide)).trans (by decide)

/-- Claim C2: for every block size, power-of-two `warp_size_`, associative `scan_op` and
value `init`, the single-value `exclusive_scan` with `init` gives each existing thread
`i` the left fold of `scan_op` over `init` and the inputs of threads `0..i-1`, and
gives thread 0 exactly `init`. -/
theorem exclusive_scan_correct (BlockSize warp_size_ : Nat) (scan_op : T → T → T)
    (input : Nat → T) (init : T) (storage : storage_type T)
    (hW : ∃ k, warp_size_ = 2 ^ k)
    (assoc : ∀ a b c, scan_op (scan_op a b) c = scan_op a (scan_op b c))
    (i : Nat) (hi : i < BlockSize) :
    (exclusive_scan BlockSize warp_size_ scan_op input init storage).output i
        = reference_exclusive scan_op init input i
      ∧ (exclusive_scan BlockSize warp_size_ scan_op input init storage).output 0 = init := by
  have hW0 := pow_two_pos _ hW
  unfold exclusive_scan
  constructor
  · exact exclusive_scan_impl_output BlockSize warp_size_ scan_op assoc input init storage
      hW0 i hi
  · rw [exclusive_scan_impl_output BlockSize warp_size_ scan_op assoc input init storage
      hW0 0 (by omega)]
    simp [reference_exclusive]

/-- Instance of C2 with list concatenation, `BlockSize = 5`, `warp_size_ = 2`. -/
theorem exclusive_scan_correct_witness :
    (exclusive_scan 5 2 List.append (fun i => [i]) [100] ⟨fun _ => []⟩).output 4
        = [100, 0, 1, 2, 3]
      ∧ (exclusive_scan 5 2 List.append (fun i => [i]) [100] ⟨fun _ => []⟩).output 0
        = [100] :=
  have h := exclusive_scan_correct 5 2 List.append (fun i => [i]) [100] ⟨fun _ => []⟩
    ⟨1, rfl⟩ List.append_assoc 4 (by decide)
  ⟨h.1.trans (by decide), h.2⟩

/-- Claim C3: for every block size, power-of-two `warp_size_` and associative `scan_op`,
the single-value `exclusive_scan` driven by a `PrefixCallback` gives each existing
thread `i` the left fold of `scan_op` over the callback result and the inputs of
threads `0..i-1`, and gives thread 0 exactly the callback result.  The callback result
is the value returned to thread 0, called with the fold of all inputs of the block. -/
theorem exclusive_scan_callback_correct (BlockSize warp_size_ : Nat) (scan_op : T → T → T)
    (input : Nat → T) (prefix_callback_op : Nat → T → T) (uninit : Nat → T)
    (storage : storage_type T)
    (hW : ∃ k, warp_size_ = 2 ^ k)
    (assoc : ∀ a b c, scan_op (scan_op a b) c = scan_op a (scan_op b c))
    (i : Nat) (hi : i < BlockSize) :
    (exclusive_scan_callback BlockSize warp_size_ scan_op input prefix_callback_op uninit
        storage).output i
        = reference_exclusive scan_op
            (prefix_callback_op 0 (reference_inclusive scan_op input (BlockSize - 1))) input i
      ∧ (exclusive_scan_callback BlockSize warp_size_ scan_op input prefix_callback_op uninit
        storage).output 0
        = prefix_callback_op 0 (reference_inclusive scan_op input (BlockSize - 1)) := by
  have hW0 := pow_two_pos _ hW
  have hB : 0 < BlockSize := by omega
  have hout : ∀ j, j < BlockSize →
      (exclusive_scan_callback BlockSize warp_size_ scan_op input prefix_callback_op uninit
        storage).output j
      = reference_exclusive scan_op
          (prefix_callback_op 0 (reference_inclusive scan_op input (BlockSize - 1))) input j := by
    intro j hj
    unfold exclusive_scan_callback
    simp only
    rw [get_block_prefix_output _ _ _ _ _ hW0 hB, exclusive_scan_impl_no_init_storage,
      block_reduction_slot BlockSize warp_size_ scan_op assoc input storage hW0 hB,
      reference_inclusive_eq_fold_from]
    cases j with
    | zero => simp [reference_exclusive]
    | succ j =>
      rw [if_neg (Nat.succ_ne_zero j),
        exclusive_scan_impl_no_init_output BlockSize warp_size_ scan_op assoc input uninit
          storage hW0 j hj, reference_exclusive_succ_eq scan_op assoc]
  refine ⟨hout i hi, ?_⟩
  rw [hout 0 hB]
  simp [reference_exclusive]

/-- Instance of C3 with list concatenation, `BlockSize = 5`, `warp_size_ = 2`, and a
callback that prepends the number of the calling thread to the block reduction. -/
theorem exclusive_scan_callback_correct_witness :
    (exclusive_scan_callback 5 2 List.append (fun i => [i]) (fun t r => (100 + t) :: r)
        (fun _ => [7]) ⟨fun _ => []⟩).output 3
        = [100, 0, 1, 2, 3, 4, 0, 1, 2]
      ∧ (exclusive_scan_callback 5 2 List.append (fun i => [i]) (fun t r => (100 + t) :: r)
        (fun _ => [7]) ⟨fun _ => []⟩).output 0
        = [100, 0, 1, 2, 3, 4] :=
  have h := exclusive_scan_callback_correct 5 2 List.append (fun i => [i])
    (fun t r => (100 + t) :: r) (fun _ => [7]) ⟨fun _ => []⟩ ⟨1, rfl⟩ List.append_assoc 3
    (by decide)
  ⟨h.1.trans (by decide), h.2.trans (by decide)⟩


/-! ## The invocations of the callback -/

theorem get_block_prefix_callers (BlockSize warp_size_ : Nat) (reduction : Nat → T)
    (prefix_callback_op : Nat → T → T) (storage : storage_type T) (hW : 0 < warp_size_) :
    List.map Prod.fst
        ( get_block_prefix BlockSize warp_size_ reduction prefix_callback_op storage).calls
      = List.range (min warp_size_ BlockSize) := by
  rw [get_block_prefix_calls _ _ _ _ _ hW, List.map_map]
  simp [Function.comp_def]

theorem get_block_prefix_arguments (BlockSize warp_size_ : Nat) (x : T)
    (prefix_callback_op : Nat → T → T) (storage : storage_type T) (hW : 0 < warp_size_) :
    List.map Prod.snd
        ( get_block_prefix BlockSize warp_size_ (fun _ => x) prefix_callback_op storage).calls
      = List.replicate (min warp_size_ BlockSize) x := by
  rw [get_block_prefix_calls _ _ _ _ _ hW, List.map_map]
  simp [Function.comp_def]

/-- The slot `warps_no_ - 1` after the aggregation over per-thread reductions of
`ItemsPerThread` items holds the fold over all items of the block. -/
theorem block_reduction_slot_items (BlockSize warp_size_ k : Nat) (scan_op : T → T → T)
    (assoc : ∀ a b c, scan_op (scan_op a b) c = scan_op a (scan_op b c))
    (input : Nat → Nat → T) (storage : storage_type T) (hW : 0 < warp_size_)
    (hB : 0 < BlockSize) (hk : 0 < k) :
    (calculate_warp_prefixes BlockSize warp_size_ scan_op
      (warp_scan_shuffle_inclusive_scan warp_size_ scan_op
        (fun flat_tid => reduce_items scan_op (input flat_tid) (k - 1))) storage).warp_prefixes
        (warps_no_ BlockSize warp_size_ - 1)
      = reference_inclusive scan_op (flatten k input) (BlockSize * k - 1) := by
  rw [block_reduction_slot BlockSize warp_size_ scan_op assoc _ storage hW hB,
    fold_thread_reductions scan_op assoc k hk input, reference_inclusive_eq_fold_from]
  congr 1
  obtain ⟨b, rfl⟩ := Nat.exists_eq_succ_of_ne_zero (Nat.pos_iff_ne_zero.mp hB)
  simp only [Nat.succ_eq_add_one, Nat.add_sub_cancel, Nat.add_mul, Nat.one_mul]
  omega

/-- Claim C4, as amended: in `get_block_prefix`, and so in each of the four callback
overloads, the callback is invoked once by each thread of lane-group 0, that is by the
threads `flat_tid < min(warp_size_, BlockSize)` in turn, and by no thread of another
group; every thread of the block is returned the value the callback gave to thread 0. -/
theorem get_block_prefix_invocations (BlockSize warp_size_ ItemsPerThread : Nat)
    (scan_op : T → T → T) (reduction : Nat → T) (input : Nat → T) (items : Nat → Nat → T)
    (prefix_callback_op : Nat → T → T) (uninit : Nat → T) (storage : storage_type T)
    (hB : 1 ≤ BlockSize) (hW : ∃ k, warp_size_ = 2 ^ k) (t : Nat) :
    List.map Prod.fst
        ( get_block_prefix BlockSize warp_size_ reduction prefix_callback_op storage).calls
        = List.range (min warp_size_ BlockSize)
      ∧ ( get_block_prefix BlockSize warp_size_ reduction prefix_callback_op storage).output t
        = prefix_callback_op 0 (reduction 0)
      ∧ List.map Prod.fst
        (inclusive_scan_callback BlockSize warp_size_ scan_op input prefix_callback_op
          storage).calls
        = List.range (min warp_size_ BlockSize)
      ∧ List.map Prod.fst
        (exclusive_scan_callback BlockSize warp_size_ scan_op input prefix_callback_op uninit
          storage).calls
        = List.range (min warp_size_ BlockSize)
      ∧ List.map Prod.fst
        (inclusive_scan_items_callback BlockSize warp_size_ ItemsPerThread scan_op items
          prefix_callback_op uninit storage).calls
        = List.range (min warp_size_ BlockSize)
      ∧ List.map Prod.fst
        (exclusive_scan_items_callback BlockSize warp_size_ ItemsPerThread scan_op items
          prefix_callback_op uninit storage).calls
        = List.range (min warp_size_ BlockSize) := by
  have hW0 := pow_two_pos _ hW
  refine ⟨get_block_prefix_callers BlockSize warp_size_ reduction prefix_callback_op storage
      hW0,
    get_block_prefix_output BlockSize warp_size_ reduction prefix_callback_op storage hW0 hB t,
    ?_, ?_, ?_, ?_⟩
  · exact get_block_prefix_callers BlockSize warp_size_ _ prefix_callback_op _ hW0
  · exact get_block_prefix_callers BlockSize warp_size_ _ prefix_callback_op _ hW0
  · exact get_block_prefix_callers BlockSize warp_size_ _ prefix_callback_op _ hW0
  · exact get_block_prefix_callers BlockSize warp_size_ _ prefix_callback_op _ hW0

/-- Instance of the amended C4: a block of 6 threads in lane-groups of 4. -/
theorem get_block_prefix_invocations_witness :
    List.map Prod.fst
        ( get_block_prefix 6 4 (fun _ => 21) (fun t r => 100 * t + r) ⟨fun _ => 0⟩).calls
        = [0, 1, 2, 3]
      ∧ ( get_block_prefix 6 4 (fun _ => 21) (fun t r => 100 * t + r) ⟨fun _ => 0⟩).output 5
        = 21
      ∧ List.map Prod.fst
        (exclusive_scan_items_callback 6 4 2 Nat.add (fun _ _ => 1)
          (fun t r => 100 * t + r) (fun _ => 0) ⟨fun _ => 0⟩).calls
        = [0, 1, 2, 3] :=
  have h := get_block_prefix_invocations 6 4 2 Nat.add (fun _ => 21) (fun _ => 1)
    (fun _ _ => 1) (fun t r => 100 * t + r) (fun _ => 0) ⟨fun _ => 0⟩ (by decide) ⟨2, rfl⟩ 5
  ⟨h.1.trans (by decide), h.2.1.trans (by decide), h.2.2.2.2.2.trans (by decide)⟩

/-- Counterexample to C4 as stated: with 4 threads in lane-groups of 2 the callback of
the single-value `exclusive_scan` is invoked twice, by thread 0 and by thread 1. -/
theorem callback_invoked_by_whole_first_warp :
    List.map Prod.fst
        (exclusive_scan_callback 4 2 Nat.add (fun _ => 1) (fun _ r => r) (fun _ => 0)
          ⟨fun _ => 0⟩).calls = [0, 1]
      ∧ (exclusive_scan_callback 4 2 Nat.add (fun _ => 1) (fun _ r => r) (fun _ => 0)
          ⟨fun _ => 0⟩).calls.length ≠ 1 := by
  decide

/-- Claim C5: in the four callback overloads every invocation of the callback passes
the total reduction of the block: the left fold of `scan_op` over all inputs in
flattened (thread, then item) order, which is the content of slot `warps_no_ - 1` after
the aggregation. -/
theorem callback_argument_is_block_reduction (BlockSize warp_size_ ItemsPerThread : Nat)
    (scan_op : T → T → T) (input : Nat → T) (items : Nat → Nat → T)
    (prefix_callback_op : Nat → T → T) (uninit : Nat → T) (storage : storage_type T)
    (hB : 1 ≤ BlockSize) (hW : ∃ k, warp_size_ = 2 ^ k) (hk : 1 ≤ ItemsPerThread)
    (assoc : ∀ a b c, scan_op (scan_op a b) c = scan_op a (scan_op b c)) :
    List.map Prod.snd
        (inclusive_scan_callback BlockSize warp_size_ scan_op input prefix_callback_op
          storage).calls
        = List.replicate (min warp_size_ BlockSize)
            (reference_inclusive scan_op input (BlockSize - 1))
      ∧ List.map Prod.snd
        (exclusive_scan_callback BlockSize warp_size_ scan_op input prefix_callback_op uninit
          storage).calls
        = List.replicate (min warp_size_ BlockSize)
            (reference_inclusive scan_op input (BlockSize - 1))
      ∧ List.map Prod.snd
        (inclusive_scan_items_callback BlockSize warp_size_ ItemsPerThread scan_op items
          prefix_callback_op uninit storage).calls
        = List.replicate (min warp_size_ BlockSize)
            (reference_inclusive scan_op (flatten ItemsPerThread items)
              (BlockSize * ItemsPerThread - 1))
      ∧ List.map Prod.snd
        (exclusive_scan_items_callback BlockSize warp_size_ ItemsPerThread scan_op items
          prefix_callback_op uninit storage).calls
        = List.replicate (min warp_size_ BlockSize)
            (reference_inclusive scan_op (flatten ItemsPerThread items)
              (BlockSize * ItemsPerThread - 1))
      ∧ (calculate_warp_prefixes BlockSize warp_size_ scan_op
          (warp_scan_shuffle_inclusive_scan warp_size_ scan_op input) storage).warp_prefixes
            (warps_no_ BlockSize warp_size_ - 1)
        = reference_inclusive scan_op input (BlockSize - 1) := by
  have hW0 := pow_two_pos _ hW
  have hslot := block_reduction_slot BlockSize warp_size_ scan_op assoc input storage hW0 hB
  rw [← reference_inclusive_eq_fold_from] at hslot
  have hitems := block_reduction_slot_items BlockSize warp_size_ ItemsPerThread scan_op assoc
    items storage hW0 hB hk
  refine ⟨?_, ?_, ?_, ?_, hslot⟩
  · unfold inclusive_scan_callback
    simp only
    rw [get_block_prefix_arguments _ _ _ _ _ hW0, inclusive_scan_impl_storage, hslot]
  · unfold exclusive_scan_callback
    simp only
    rw [get_block_prefix_arguments _ _ _ _ _ hW0, exclusive_scan_impl_no_init_storage, hslot]
  · unfold inclusive_scan_items_callback
    simp only
    rw [get_block_prefix_arguments _ _ _ _ _ hW0, exclusive_scan_impl_no_init_storage, hitems]
  · unfold exclusive_scan_items_callback
    simp only
    rw [get_block_prefix_arguments _ _ _ _ _ hW0, exclusive_scan_impl_no_init_storage, hitems]

/-- Instance of C5 with list concatenation: 5 threads in lane-groups of 2, and 2 items
per thread in the multi-item overloads. -/
theorem callback_argument_is_block_reduction_witness :
    List.map Prod.snd
        (inclusive_scan_callback 5 2 List.append (fun i => [i]) (fun t r => t :: r)
          ⟨fun _ => []⟩).calls
        = [[0, 1, 2, 3, 4], [0, 1, 2, 3, 4]]
      ∧ List.map Prod.snd
        (exclusive_scan_items_callback 5 2 2 List.append (fun t j => [2 * t + j])
          (fun t r => t :: r) (fun _ => [7]) ⟨fun _ => []⟩).calls
        = [[0, 1, 2, 3, 4, 5, 6, 7, 8, 9], [0, 1, 2, 3, 4, 5, 6, 7, 8, 9]] :=
  have h := callback_argument_is_block_reduction 5 2 2 List.append (fun i => [i])
    (fun t j => [2 * t + j]) (fun t r => t :: r) (fun _ => [7]) ⟨fun _ => []⟩
    (by decide) ⟨1, rfl⟩ (by decide) List.append_assoc
  ⟨h.1.trans (by decide), h.2.2.2.1.trans (by decide)⟩


/-! ## Correctness of the multi-item scans -/

theorem inclusive_scan_items_output (BlockSize warp_size_ k : Nat) (scan_op : T → T → T)
    (assoc : ∀ a b c, scan_op (scan_op a b) c = scan_op a (scan_op b c))
    (input : Nat → Nat → T) (uninit : Nat → T) (storage : storage_type T)
    (hW : 0 < warp_size_) (t : Nat) (ht : t < BlockSize) (j : Nat) (hj : j < k) :
    (inclusive_scan_items BlockSize warp_size_ k scan_op input uninit storage).output t j
      = fold_from scan_op (flatten k input) 0 (t * k + j) := by
  have hk : 0 < k := by omega
  unfold inclusive_scan_items
  simp only
  apply inclusive_items_eq scan_op k input t _ _ j hj
  cases t with
  | zero =>
    rw [if_pos rfl, ← flatten_at k input 0 0 hk]
    simp [fold_from]
  | succ s =>
    rw [if_neg (Nat.succ_ne_zero s),
      exclusive_scan_impl_no_init_output BlockSize warp_size_ scan_op assoc _ uninit storage
        hW s ht,
      fold_thread_reductions scan_op assoc k hk input s]
    have e : (s + 1) * k = (s * k + (k - 1)) + 1 := by rw [Nat.add_mul]; omega
    rw [e]
    simp only [fold_from, Nat.zero_add]
    rw [← e, ← flatten_at k input (s + 1) 0 hk]
    simp

/-- Claim C6: for every block size, power-of-two `warp_size_`, `ItemsPerThread ≥ 1` and
associative `scan_op`, the multi-item `inclusive_scan` gives item `j` of thread `t` the
left fold of `scan_op` over all inputs of flattened index at most
`t * ItemsPerThread + j`; the first output of thread 0 is its first input. -/
theorem inclusive_scan_items_correct (BlockSize warp_size_ ItemsPerThread : Nat)
    (scan_op : T → T → T) (input : Nat → Nat → T) (uninit : Nat → T)
    (storage : storage_type T)
    (hW : ∃ k, warp_size_ = 2 ^ k)
    (assoc : ∀ a b c, scan_op (scan_op a b) c = scan_op a (scan_op b c))
    (t : Nat) (ht : t < BlockSize) (j : Nat) (hj : j < ItemsPerThread) :
    (inclusive_scan_items BlockSize warp_size_ ItemsPerThread scan_op input uninit
        storage).output t j
        = reference_inclusive scan_op (flatten ItemsPerThread input) (t * ItemsPerThread + j)
      ∧ (inclusive_scan_items BlockSize warp_size_ ItemsPerThread scan_op input uninit
        storage).output 0 0 = input 0 0 := by
  constructor
  · rw [reference_inclusive_eq_fold_from]
    exact inclusive_scan_items_output BlockSize warp_size_ ItemsPerThread scan_op assoc input
      uninit storage (pow_two_pos _ hW) t ht j hj
  · simp [inclusive_scan_items, inclusive_items]

/-- Instance of C6 with list concatenation: 5 threads in lane-groups of 2, 3 items per
thread; item 1 of thread 3 has flattened index 10. -/
theorem inclusive_scan_items_correct_witness :
    (inclusive_scan_items 5 2 3 List.append (fun t j => [3 * t + j]) (fun _ => [77])
        ⟨fun _ => []⟩).output 3 1 = [0, 1, 2, 3, 4, 5, 6, 7, 8, 9, 10]
      ∧ (inclusive_scan_items 5 2 3 List.append (fun t j => [3 * t + j]) (fun _ => [77])
        ⟨fun _ => []⟩).output 0 0 = [0] :=
  have h := inclusive_scan_items_correct 5 2 3 List.append (fun t j => [3 * t + j])
    (fun _ => [77]) ⟨fun _ => []⟩ ⟨1, rfl⟩ List.append_assoc 3 (by decide) 1 (by decide)
  ⟨h.1.trans (by decide), h.2.trans (by decide)⟩

/-- Claim C7: for every block size, power-of-two `warp_size_`, `ItemsPerThread ≥ 1`,
associative `scan_op` and value `init`, the multi-item `exclusive_scan` with `init`
gives item `j` of thread `t` the left fold of `scan_op` over `init` and all inputs of
flattened index below `t * ItemsPerThread + j`; item 0 of thread 0 receives `init`. -/
theorem exclusive_scan_items_correct (BlockSize warp_size_ ItemsPerThread : Nat)
    (scan_op : T → T → T) (input : Nat → Nat → T) (init : T) (storage : storage_type T)
    (hW : ∃ k, warp_size_ = 2 ^ k)
    (assoc : ∀ a b c, scan_op (scan_op a b) c = scan_op a (scan_op b c))
    (t : Nat) (ht : t < BlockSize) (j : Nat) (hj : j < ItemsPerThread) :
    (exclusive_scan_items BlockSize warp_size_ ItemsPerThread scan_op input init
        storage).output t j
        = reference_exclusive scan_op init (flatten ItemsPerThread input)
            (t * ItemsPerThread + j)
      ∧ (exclusive_scan_items BlockSize warp_size_ ItemsPerThread scan_op input init
        storage).output 0 0 = init := by
  have hk : 0 < ItemsPerThread := by omega
  constructor
  · unfold exclusive_scan_items
    simp only
    apply exclusive_items_eq scan_op ItemsPerThread input t init _ _ j hj
    rw [exclusive_scan_impl_output BlockSize warp_size_ scan_op assoc _ init storage
      (pow_two_pos _ hW) t ht,
      reference_exclusive_threads scan_op assoc ItemsPerThread hk input init t]
    split
    · rename_i h0; subst h0; simp [reference_exclusive]
    · rfl
  · simp [exclusive_scan_items, exclusive_items, exclusive_items_loop]

/-- Instance of C7 with list concatenation: 5 threads in lane-groups of 2, 3 items per
thread. -/
theorem exclusive_scan_items_correct_witness :
    (exclusive_scan_items 5 2 3 List.append (fun t j => [3 * t + j]) [100]
        ⟨fun _ => []⟩).output 3 1 = [100, 0, 1, 2, 3, 4, 5, 6, 7, 8, 9]
      ∧ (exclusive_scan_items 5 2 3 List.append (fun t j => [3 * t + j]) [100]
        ⟨fun _ => []⟩).output 0 0 = [100] :=
  have h := exclusive_scan_items_correct 5 2 3 List.append (fun t j => [3 * t + j]) [100]
    ⟨fun _ => []⟩ ⟨1, rfl⟩ List.append_assoc 3 (by decide) 1 (by decide)
  ⟨h.1.trans (by decide), h.2⟩

/-- Claim C8: for every block size, power-of-two `warp_size_`, `ItemsPerThread ≥ 1` and
associative `scan_op`, the multi-item `exclusive_scan` driven by a `PrefixCallback`
gives item `j` of thread `t` the left fold of `scan_op` over the callback result and
all inputs of flattened index below `t * ItemsPerThread + j`; item 0 of thread 0
receives the callback result.  The callback result is the value returned to thread 0,
called with the fold of all inputs of the block. -/
theorem exclusive_scan_items_callback_correct (BlockSize warp_size_ ItemsPerThread : Nat)
    (scan_op : T → T → T) (input : Nat → Nat → T) (prefix_callback_op : Nat → T → T)
    (uninit : Nat → T) (storage : storage_type T)
    (hW : ∃ k, warp_size_ = 2 ^ k)
    (assoc : ∀ a b c, scan_op (scan_op a b) c = scan_op a (scan_op b c))
    (t : Nat) (ht : t < BlockSize) (j : Nat) (hj : j < ItemsPerThread) :
    (exclusive_scan_items_callback BlockSize warp_size_ ItemsPerThread scan_op input
        prefix_callback_op uninit storage).output t j
        = reference_exclusive scan_op
            (prefix_callback_op 0 (reference_inclusive scan_op (flatten ItemsPerThread input)
              (BlockSize * ItemsPerThread - 1)))
            (flatten ItemsPerThread input) (t * ItemsPerThread + j)
      ∧ (exclusive_scan_items_callback BlockSize warp_size_ ItemsPerThread scan_op input
        prefix_callback_op uninit storage).output 0 0
        = prefix_callback_op 0 (reference_inclusive scan_op (flatten ItemsPerThread input)
            (BlockSize * ItemsPerThread - 1)) := by
  have hk : 0 < ItemsPerThread := by omega
  have hB : 0 < BlockSize := by omega
  have hW0 := pow_two_pos _ hW
  have hitems := block_reduction_slot_items BlockSize warp_size_ ItemsPerThread scan_op assoc
    input storage hW0 hB hk
  constructor
  · unfold exclusive_scan_items_callback
    simp only
    apply exclusive_items_eq scan_op ItemsPerThread input t _ _ _ j hj
    rw [get_block_prefix_output _ _ _ _ _ hW0 hB, exclusive_scan_impl_no_init_storage, hitems]
    cases t with
    | zero => simp [reference_exclusive]
    | succ s =>
      rw [if_neg (Nat.succ_ne_zero s),
        exclusive_scan_impl_no_init_output BlockSize warp_size_ scan_op assoc _ uninit storage
          hW0 s ht,
        ← reference_exclusive_succ_eq scan_op assoc,
        reference_exclusive_threads scan_op assoc ItemsPerThread hk input _ (s + 1)]
  · unfold exclusive_scan_items_callback
    simp only [exclusive_items, exclusive_items_loop, if_true]
    rw [get_block_prefix_output _ _ _ _ _ hW0 hB, exclusive_scan_impl_no_init_storage, hitems]

/-- Instance of C8 with list concatenation: 3 threads in lane-groups of 2, 2 items per
thread, and a callback that prepends `100 +` the number of the calling thread. -/
theorem exclusive_scan_items_callback_correct_witness :
    (exclusive_scan_items_callback 3 2 2 List.append (fun t j => [2 * t + j])
        (fun t r => (100 + t) :: r) (fun _ => [77]) ⟨fun _ => []⟩).output 2 1
        = [100, 0, 1, 2, 3, 4, 5, 0, 1, 2, 3, 4]
      ∧ (exclusive_scan_items_callback 3 2 2 List.append (fun t j => [2 * t + j])
        (fun t r => (100 + t) :: r) (fun _ => [77]) ⟨fun _ => []⟩).output 0 0
        = [100, 0, 1, 2, 3, 4, 5] :=
  have h := exclusive_scan_items_callback_correct 3 2 2 List.append (fun t j => [2 * t + j])
    (fun t r => (100 + t) :: r) (fun _ => [77]) ⟨fun _ => []⟩ ⟨1, rfl⟩ List.append_assoc
    2 (by decide) 1 (by decide)
  ⟨h.1.trans (by decide), h.2.trans (by decide)⟩


/-! ## The reported reduction -/

theorem last_flat_index (BlockSize k : Nat) (hB : 0 < BlockSize) (hk : 0 < k) :
    (BlockSize - 1) * k + (k - 1) = BlockSize * k - 1 := by
  obtain ⟨b, rfl⟩ := Nat.exists_eq_succ_of_ne_zero (Nat.pos_iff_ne_zero.mp hB)
  simp only [Nat.succ_eq_add_one, Nat.add_sub_cancel, Nat.add_mul, Nat.one_mul]
  omega

/-- Claim C9: the reduction reported by `inclusive_scan`, in the single-value overload
and in the multi-item overload for every `ItemsPerThread ≥ 1`, is the output of the
last thread `BlockSize - 1` (its last item), and it is the left fold of `scan_op` over
all inputs of the block. -/
theorem inclusive_scan_reduction_correct (BlockSize warp_size_ ItemsPerThread : Nat)
    (scan_op : T → T → T) (input : Nat → T) (items : Nat → Nat → T) (uninit : Nat → T)
    (storage : storage_type T)
    (hB : 1 ≤ BlockSize) (hW : ∃ k, warp_size_ = 2 ^ k) (hk : 1 ≤ ItemsPerThread)
    (assoc : ∀ a b c, scan_op (scan_op a b) c = scan_op a (scan_op b c)) (t : Nat) :
    (inclusive_scan_reduction BlockSize warp_size_ scan_op input storage).reduction t
        = (inclusive_scan_reduction BlockSize warp_size_ scan_op input storage).output
            (BlockSize - 1)
      ∧ (inclusive_scan_reduction BlockSize warp_size_ scan_op input storage).reduction t
        = reference_inclusive scan_op input (BlockSize - 1)
      ∧ (inclusive_scan_items_reduction BlockSize warp_size_ ItemsPerThread scan_op items
          uninit storage).reduction t
        = (inclusive_scan_items_reduction BlockSize warp_size_ ItemsPerThread scan_op items
          uninit storage).output (BlockSize - 1) (ItemsPerThread - 1)
      ∧ (inclusive_scan_items_reduction BlockSize warp_size_ ItemsPerThread scan_op items
          uninit storage).reduction t
        = reference_inclusive scan_op (flatten ItemsPerThread items)
            (BlockSize * ItemsPerThread - 1) := by
  have hW0 := pow_two_pos _ hW
  have h1 : (inclusive_scan_reduction BlockSize warp_size_ scan_op input storage).reduction t
      = reference_inclusive scan_op input (BlockSize - 1) := by
    unfold inclusive_scan_reduction inclusive_scan
    simp only
    rw [inclusive_scan_impl_storage,
      block_reduction_slot BlockSize warp_size_ scan_op assoc input storage hW0 hB,
      reference_inclusive_eq_fold_from]
  have h2 : (inclusive_scan_items_reduction BlockSize warp_size_ ItemsPerThread scan_op items
      uninit storage).reduction t
      = reference_inclusive scan_op (flatten ItemsPerThread items)
          (BlockSize * ItemsPerThread - 1) := by
    unfold inclusive_scan_items_reduction inclusive_scan_items
    simp only
    rw [exclusive_scan_impl_no_init_storage]
    exact block_reduction_slot_items BlockSize warp_size_ ItemsPerThread scan_op assoc items
      storage hW0 hB hk
  refine ⟨?_, h1, ?_, h2⟩
  · rw [h1]
    unfold inclusive_scan_reduction inclusive_scan
    simp only
    rw [inclusive_scan_impl_output BlockSize warp_size_ scan_op assoc input storage hW0
      (BlockSize - 1) (by omega), reference_inclusive_eq_fold_from]
  · rw [h2]
    unfold inclusive_scan_items_reduction
    simp only
    rw [inclusive_scan_items_output BlockSize warp_size_ ItemsPerThread scan_op assoc items
      uninit storage hW0 (BlockSize - 1) (by omega) (ItemsPerThread - 1) (by omega),
      reference_inclusive_eq_fold_from, last_flat_index BlockSize ItemsPerThread hB hk]

/-- Instance of C9 with list concatenation: 5 threads in lane-groups of 2, and 2 items
per thread in the multi-item overload. -/
theorem inclusive_scan_reduction_correct_witness :
    (inclusive_scan_reduction 5 2 List.append (fun i => [i]) ⟨fun _ => []⟩).reduction 1
        = [0, 1, 2, 3, 4]
      ∧ (inclusive_scan_items_reduction 5 2 2 List.append (fun t j => [2 * t + j])
          (fun _ => [77]) ⟨fun _ => []⟩).reduction 1
        = [0, 1, 2, 3, 4, 5, 6, 7, 8, 9] :=
  have h := inclusive_scan_reduction_correct 5 2 2 List.append (fun i => [i])
    (fun t j => [2 * t + j]) (fun _ => [77]) ⟨fun _ => []⟩ (by decide) ⟨1, rfl⟩ (by decide)
    List.append_assoc 1
  ⟨h.2.1.trans (by decide), h.2.2.2.trans (by decide)⟩

/-- Claim C10: the reduction reported by `exclusive_scan` with `init`, in the
single-value and in the multi-item overload, is the last element of the inclusive scan
of the same inputs, that is the left fold of `scan_op` over all inputs alone; it does
not include `init` and is the same for every choice `other` of the initial value. -/
theorem exclusive_scan_reduction_correct (BlockSize warp_size_ ItemsPerThread : Nat)
    (scan_op : T → T → T) (input : Nat → T) (items : Nat → Nat → T) (init other : T)
    (uninit : Nat → T) (storage : storage_type T)
    (hB : 1 ≤ BlockSize) (hW : ∃ k, warp_size_ = 2 ^ k) (hk : 1 ≤ ItemsPerThread)
    (assoc : ∀ a b c, scan_op (scan_op a b) c = scan_op a (scan_op b c)) (t : Nat) :
    (exclusive_scan_reduction BlockSize warp_size_ scan_op input init storage).reduction t
        = (inclusive_scan BlockSize warp_size_ scan_op input storage).output (BlockSize - 1)
      ∧ (exclusive_scan_reduction BlockSize warp_size_ scan_op input init storage).reduction t
        = reference_inclusive scan_op input (BlockSize - 1)
      ∧ (exclusive_scan_reduction BlockSize warp_size_ scan_op input init storage).reduction t
        = (exclusive_scan_reduction BlockSize warp_size_ scan_op input other
            storage).reduction t
      ∧ (exclusive_scan_items_reduction BlockSize warp_size_ ItemsPerThread scan_op items init
          storage).reduction t
        = (inclusive_scan_items BlockSize warp_size_ ItemsPerThread scan_op items uninit
          storage).output (BlockSize - 1) (ItemsPerThread - 1)
      ∧ (exclusive_scan_items_reduction BlockSize warp_size_ ItemsPerThread scan_op items init
          storage).reduction t
        = reference_inclusive scan_op (flatten ItemsPerThread items)
            (BlockSize * ItemsPerThread - 1)
      ∧ (exclusive_scan_items_reduction BlockSize warp_size_ ItemsPerThread scan_op items init
          storage).reduction t
        = (exclusive_scan_items_reduction BlockSize warp_size_ ItemsPerThread scan_op items
          other storage).reduction t := by
  have hW0 := pow_two_pos _ hW
  have h1 : ∀ x : T,
      (exclusive_scan_reduction BlockSize warp_size_ scan_op input x storage).reduction t
      = reference_inclusive scan_op input (BlockSize - 1) := by
    intro x
    unfold exclusive_scan_reduction exclusive_scan
    simp only
    rw [exclusive_scan_impl_storage,
      block_reduction_slot BlockSize warp_size_ scan_op assoc input storage hW0 hB,
      reference_inclusive_eq_fold_from]
  have h2 : ∀ x : T,
      (exclusive_scan_items_reduction BlockSize warp_size_ ItemsPerThread scan_op items x
        storage).reduction t
      = reference_inclusive scan_op (flatten ItemsPerThread items)
          (BlockSize * ItemsPerThread - 1) := by
    intro x
    unfold exclusive_scan_items_reduction exclusive_scan_items
    simp only
    rw [exclusive_scan_impl_storage]
    exact block_reduction_slot_items BlockSize warp_size_ ItemsPerThread scan_op assoc items
      storage hW0 hB hk
  refine ⟨?_, h1 init, ?_, ?_, h2 init, ?_⟩
  · rw [h1 init]
    unfold inclusive_scan
    rw [inclusive_scan_impl_output BlockSize warp_size_ scan_op assoc input storage hW0
      (BlockSize - 1) (by omega), reference_inclusive_eq_fold_from]
  · rw [h1 init, h1 other]
  · rw [h2 init,
      inclusive_scan_items_output BlockSize warp_size_ ItemsPerThread scan_op assoc items
        uninit storage hW0 (BlockSize - 1) (by omega) (ItemsPerThread - 1) (by omega),
      reference_inclusive_eq_fold_from, last_flat_index BlockSize ItemsPerThread hB hk]
  · rw [h2 init, h2 other]

/-- Instance of C10 with list concatenation: 5 threads in lane-groups of 2, 2 items per
thread in the multi-item overload, initial value `[100]`. -/
theorem exclusive_scan_reduction_correct_witness :
    (exclusive_scan_reduction 5 2 List.append (fun i => [i]) [100] ⟨fun _ => []⟩).reduction 1
        = [0, 1, 2, 3, 4]
      ∧ (exclusive_scan_items_reduction 5 2 2 List.append (fun t j => [2 * t + j]) [100]
          ⟨fun _ => []⟩).reduction 1
        = [0, 1, 2, 3, 4, 5, 6, 7, 8, 9] :=
  have h := exclusive_scan_reduction_correct 5 2 2 List.append (fun i => [i])
    (fun t j => [2 * t + j]) [100] [200] (fun _ => [77]) ⟨fun _ => []⟩ (by decide) ⟨1, rfl⟩
    (by decide) List.append_assoc 1
  ⟨h.2.1.trans (by decide), h.2.2.2.2.1.trans (by decide)⟩


/-! ## The callback path against the `init` path -/

theorem exclusive_scan_callback_output (BlockSize warp_size_ : Nat) (scan_op : T → T → T)
    (assoc : ∀ a b c, scan_op (scan_op a b) c = scan_op a (scan_op b c))
    (input : Nat → T) (prefix_callback_op : Nat → T → T) (uninit : Nat → T)
    (storage : storage_type T) (hW : 0 < warp_size_) (t : Nat) (ht : t < BlockSize) :
    (exclusive_scan_callback BlockSize warp_size_ scan_op input prefix_callback_op uninit
        storage).output t
      = reference_exclusive scan_op
          (prefix_callback_op 0 (reference_inclusive scan_op input (BlockSize - 1))) input t := by
  have hB : 0 < BlockSize := by omega
  unfold exclusive_scan_callback
  simp only
  rw [get_block_prefix_output _ _ _ _ _ hW hB, exclusive_scan_impl_no_init_storage,
    block_reduction_slot BlockSize warp_size_ scan_op assoc input storage hW hB,
    reference_inclusive_eq_fold_from]
  cases t with
  | zero => simp [reference_exclusive]
  | succ j =>
    rw [if_neg (Nat.succ_ne_zero j),
      exclusive_scan_impl_no_init_output BlockSize warp_size_ scan_op assoc input uninit
        storage hW j ht, reference_exclusive_succ_eq scan_op assoc]

/-- Claim C11: when the callback returns `c` (to thread 0, called with the block
reduction), the single-value `exclusive_scan` with that callback gives every thread of
the block the output of the single-value `exclusive_scan` with `init = c`. -/
theorem exclusive_scan_callback_eq_init (BlockSize warp_size_ : Nat) (scan_op : T → T → T)
    (input : Nat → T) (prefix_callback_op : Nat → T → T) (c : T) (uninit : Nat → T)
    (storage : storage_type T)
    (hW : ∃ k, warp_size_ = 2 ^ k)
    (assoc : ∀ a b c, scan_op (scan_op a b) c = scan_op a (scan_op b c))
    (hc : prefix_callback_op 0 (reference_inclusive scan_op input (BlockSize - 1)) = c)
    (i : Nat) (hi : i < BlockSize) :
    (exclusive_scan_callback BlockSize warp_size_ scan_op input prefix_callback_op uninit
        storage).output i
      = (exclusive_scan BlockSize warp_size_ scan_op input c storage).output i := by
  have hW0 := pow_two_pos _ hW
  rw [exclusive_scan_callback_output BlockSize warp_size_ scan_op assoc input
    prefix_callback_op uninit storage hW0 i hi, hc]
  unfold exclusive_scan
  rw [exclusive_scan_impl_output BlockSize warp_size_ scan_op assoc input c storage hW0 i hi]

/-- Instance of C11 with list concatenation, 5 threads in lane-groups of 2 and the
callback that always returns `[100]`. -/
theorem exclusive_scan_callback_eq_init_witness :
    (exclusive_scan_callback 5 2 List.append (fun i => [i]) (fun _ _ => [100])
        (fun _ => [7]) ⟨fun _ => []⟩).output 4
      = (exclusive_scan 5 2 List.append (fun i => [i]) [100] ⟨fun _ => []⟩).output 4 :=
  exclusive_scan_callback_eq_init 5 2 List.append (fun i => [i]) (fun _ _ => [100]) [100]
    (fun _ => [7]) ⟨fun _ => []⟩ ⟨1, rfl⟩ List.append_assoc rfl 4 (by decide)

/-! ## Inclusive scans with a callback -/

theorem inclusive_items_shift (scan_op : T → T → T)
    (assoc : ∀ a b c, scan_op (scan_op a b) c = scan_op a (scan_op b c))
    (input : Nat → T) (b first : T) (j : Nat) :
    inclusive_items scan_op input (scan_op b first) j
      = scan_op b (inclusive_items scan_op input first j) := by
  induction j with
  | zero => simp [inclusive_items]
  | succ j ih => simp only [inclusive_items]; rw [ih, assoc]

/-- Claim C12: for `inclusive_scan` driven by a `PrefixCallback`, in the single-value
overload and in the multi-item overload, the output at flattened index `i` is
`scan_op block_prefix (left fold of the inputs of flattened index ≤ i)`, where the
block prefix is the value the callback returned to thread 0 when called with the block
reduction; the first output of thread 0 is `scan_op block_prefix (its first input)`. -/
theorem inclusive_scan_callback_correct (BlockSize warp_size_ ItemsPerThread : Nat)
    (scan_op : T → T → T) (input : Nat → T) (items : Nat → Nat → T)
    (prefix_callback_op : Nat → T → T) (uninit : Nat → T) (storage : storage_type T)
    (hW : ∃ k, warp_size_ = 2 ^ k)
    (assoc : ∀ a b c, scan_op (scan_op a b) c = scan_op a (scan_op b c))
    (t : Nat) (ht : t < BlockSize) (j : Nat) (hj : j < ItemsPerThread) :
    (inclusive_scan_callback BlockSize warp_size_ scan_op input prefix_callback_op
        storage).output t
        = scan_op (prefix_callback_op 0 (reference_inclusive scan_op input (BlockSize - 1)))
            (reference_inclusive scan_op input t)
      ∧ (inclusive_scan_callback BlockSize warp_size_ scan_op input prefix_callback_op
        storage).output 0
        = scan_op (prefix_callback_op 0 (reference_inclusive scan_op input (BlockSize - 1)))
            (input 0)
      ∧ (inclusive_scan_items_callback BlockSize warp_size_ ItemsPerThread scan_op items
        prefix_callback_op uninit storage).output t j
        = scan_op
            (prefix_callback_op 0 (reference_inclusive scan_op (flatten ItemsPerThread items)
              (BlockSize * ItemsPerThread - 1)))
            (reference_inclusive scan_op (flatten ItemsPerThread items)
              (t * ItemsPerThread + j))
      ∧ (inclusive_scan_items_callback BlockSize warp_size_ ItemsPerThread scan_op items
        prefix_callback_op uninit storage).output 0 0
        = scan_op
            (prefix_callback_op 0 (reference_inclusive scan_op (flatten ItemsPerThread items)
              (BlockSize * ItemsPerThread - 1)))
            (items 0 0) := by
  have hW0 := pow_two_pos _ hW
  have hB : 0 < BlockSize := by omega
  have hk : 0 < ItemsPerThread := by omega
  have h1 : ∀ s, s < BlockSize →
      (inclusive_scan_callback BlockSize warp_size_ scan_op input prefix_callback_op
        storage).output s
      = scan_op (prefix_callback_op 0 (reference_inclusive scan_op input (BlockSize - 1)))
          (reference_inclusive scan_op input s) := by
    intro s hs
    unfold inclusive_scan_callback
    simp only
    rw [get_block_prefix_output _ _ _ _ _ hW0 hB, inclusive_scan_impl_storage,
      block_reduction_slot BlockSize warp_size_ scan_op assoc input storage hW0 hB,
      inclusive_scan_impl_output BlockSize warp_size_ scan_op assoc input storage hW0 s hs,
      reference_inclusive_eq_fold_from, reference_inclusive_eq_fold_from]
  have h2 : ∀ s, s < BlockSize → ∀ i, i < ItemsPerThread →
      (inclusive_scan_items_callback BlockSize warp_size_ ItemsPerThread scan_op items
        prefix_callback_op uninit storage).output s i
      = scan_op
          (prefix_callback_op 0 (reference_inclusive scan_op (flatten ItemsPerThread items)
            (BlockSize * ItemsPerThread - 1)))
          (reference_inclusive scan_op (flatten ItemsPerThread items)
            (s * ItemsPerThread + i)) := by
    intro s hs i hi
    have hout := inclusive_scan_items_output BlockSize warp_size_ ItemsPerThread scan_op assoc
      items uninit storage hW0 s hs i hi
    unfold inclusive_scan_items at hout
    simp only at hout
    unfold inclusive_scan_items_callback
    simp only
    rw [inclusive_items_shift scan_op assoc, hout, get_block_prefix_output _ _ _ _ _ hW0 hB,
      exclusive_scan_impl_no_init_storage,
      block_reduction_slot_items BlockSize warp_size_ ItemsPerThread scan_op assoc items
        storage hW0 hB hk, reference_inclusive_eq_fold_from _ _ (s * ItemsPerThread + i)]
  refine ⟨h1 t ht, ?_, h2 t ht j hj, ?_⟩
  · rw [h1 0 hB]; simp [reference_inclusive]
  · rw [h2 0 hB 0 hk]
    simp [reference_inclusive, flatten, Nat.zero_div, Nat.zero_mod]

/-- Instance of C12 with list concatenation: 5 threads in lane-groups of 2, 2 items
per thread in the multi-item overload, and a callback that prepends `100 +` the number
of the calling thread to the block reduction. -/
theorem inclusive_scan_callback_correct_witness :
    (inclusive_scan_callback 5 2 List.append (fun i => [i]) (fun t r => (100 + t) :: r)
        ⟨fun _ => []⟩).output 3
        = [100, 0, 1, 2, 3, 4, 0, 1, 2, 3]
      ∧ (inclusive_scan_items_callback 3 2 2 List.append (fun t j => [2 * t + j])
        (fun t r => (100 + t) :: r) (fun _ => [77]) ⟨fun _ => []⟩).output 2 1
        = [100, 0, 1, 2, 3, 4, 5, 0, 1, 2, 3, 4, 5]
      ∧ (inclusive_scan_items_callback 3 2 2 List.append (fun t j => [2 * t + j])
        (fun t r => (100 + t) :: r) (fun _ => [77]) ⟨fun _ => []⟩).output 0 0
        = [100, 0, 1, 2, 3, 4, 5, 0] :=
  have h := inclusive_scan_callback_correct 5 2 2 List.append (fun i => [i])
    (fun t j => [2 * t + j]) (fun t r => (100 + t) :: r) (fun _ => [77]) ⟨fun _ => []⟩
    ⟨1, rfl⟩ List.append_assoc 3 (by decide) 1 (by decide)
  have g := inclusive_scan_callback_correct 3 2 2 List.append (fun i => [i])
    (fun t j => [2 * t + j]) (fun t r => (100 + t) :: r) (fun _ => [77]) ⟨fun _ => []⟩
    ⟨1, rfl⟩ List.append_assoc 2 (by decide) 1 (by decide)
  ⟨h.1.trans (by decide), g.2.2.1.trans (by decide), g.2.2.2.trans (by decide)⟩


/-! ## Concrete scenarios -/

theorem reference_inclusive_all_ones (i : Nat) :
    reference_inclusive (fun a b : Int => a + b) (fun _ => 1) i = (i : Int) + 1 := by
  induction i with
  | zero => simp [reference_inclusive]
  | succ i ih => rw [reference_inclusive_succ, ih]; push_cast; ring

theorem reference_exclusive_all_ones (i : Nat) :
    reference_exclusive (fun a b : Int => a + b) 0 (fun _ => 1) i = (i : Int) := by
  induction i with
  | zero => simp [reference_exclusive]
  | succ i ih => rw [reference_exclusive_succ, ih]; push_cast; ring

theorem int_add_assoc (a b c : Int) :
    (fun a b : Int => a + b) ((fun a b : Int => a + b) a b) c
      = (fun a b : Int => a + b) a ((fun a b : Int => a + b) b c) := by
  simp only; ring

/-- Claim C13: with `BlockSize = 128`, `warp_size_ = 32` (4 lane-groups), one item per
thread, integer addition and every input equal to 1, `inclusive_scan` gives
`output[i] = i + 1` for every `i` in `[0, 128)`, `exclusive_scan` with `init = 0` gives
`output[i] = i`, and the reported reduction of the block is 128. -/
theorem scenario_all_ones (storage : storage_type Int) (i : Nat) (hi : i < 128) :
    warps_no_ 128 32 = 4
      ∧ (inclusive_scan 128 32 (fun a b : Int => a + b) (fun _ => 1) storage).output i
        = (i : Int) + 1
      ∧ (exclusive_scan 128 32 (fun a b : Int => a + b) (fun _ => 1) 0 storage).output i
        = (i : Int)
      ∧ (inclusive_scan_reduction 128 32 (fun a b : Int => a + b) (fun _ => 1)
          storage).reduction i = 128
      ∧ (exclusive_scan_reduction 128 32 (fun a b : Int => a + b) (fun _ => 1) 0
          storage).reduction i = 128 := by
  have hW : 0 < 32 := by decide
  have hB : 0 < 128 := by decide
  have hred : (calculate_warp_prefixes 128 32 (fun a b : Int => a + b)
      (warp_scan_shuffle_inclusive_scan 32 (fun a b : Int => a + b) (fun _ => 1))
      storage).warp_prefixes (warps_no_ 128 32 - 1) = 128 := by
    rw [block_reduction_slot 128 32 _ int_add_assoc _ storage hW hB,
      ← reference_inclusive_eq_fold_from, reference_inclusive_all_ones]
    norm_num
  refine ⟨by decide, ?_, ?_, ?_, ?_⟩
  · unfold inclusive_scan
    rw [inclusive_scan_impl_output 128 32 _ int_add_assoc _ storage hW i hi,
      ← reference_inclusive_eq_fold_from, reference_inclusive_all_ones]
  · unfold exclusive_scan
    rw [exclusive_scan_impl_output 128 32 _ int_add_assoc _ 0 storage hW i hi,
      reference_exclusive_all_ones]
  · unfold inclusive_scan_reduction inclusive_scan
    simp only
    rw [inclusive_scan_impl_storage]
    exact hred
  · unfold exclusive_scan_reduction exclusive_scan
    simp only
    rw [exclusive_scan_impl_storage]
    exact hred

/-- Instance of C13 at the last thread, `i = 127`. -/
theorem scenario_all_ones_witness :
    warps_no_ 128 32 = 4
      ∧ (inclusive_scan 128 32 (fun a b : Int => a + b) (fun _ => 1) ⟨fun _ => 0⟩).output 127
        = ((127 : Nat) : Int) + 1
      ∧ (exclusive_scan 128 32 (fun a b : Int => a + b) (fun _ => 1) 0
          ⟨fun _ => 0⟩).output 127 = ((127 : Nat) : Int)
      ∧ (inclusive_scan_reduction 128 32 (fun a b : Int => a + b) (fun _ => 1)
          ⟨fun _ => 0⟩).reduction 127 = 128
      ∧ (exclusive_scan_reduction 128 32 (fun a b : Int => a + b) (fun _ => 1) 0
          ⟨fun _ => 0⟩).reduction 127 = 128 :=
  scenario_all_ones ⟨fun _ => 0⟩ 127 (by decide)

theorem reference_inclusive_max_mod_seven (i : Nat) :
    reference_inclusive (fun a b : Nat => max a b) (fun i => i % 7) i = min i 6 := by
  induction i with
  | zero => simp [reference_inclusive]
  | succ i ih => rw [reference_inclusive_succ, ih]; omega

theorem nat_max_assoc (a b c : Nat) :
    (fun a b : Nat => max a b) ((fun a b : Nat => max a b) a b) c
      = (fun a b : Nat => max a b) a ((fun a b : Nat => max a b) b c) := by
  simp only; omega

/-- Claim C14: with `BlockSize = 64`, `warp_size_ = 32`, one item per thread,
`scan_op = max` and inputs `x[i] = i mod 7`, `inclusive_scan` gives thread `i` the
result of the sequential scan, which is the running maximum of `x[0..i]`: it bounds
every `x[j]` with `j ≤ i`, is attained among them, and equals `min i 6`. -/
theorem scenario_running_max (storage : storage_type Nat) (i : Nat) (hi : i < 64) :
    (inclusive_scan 64 32 (fun a b : Nat => max a b) (fun i => i % 7) storage).output i
        = reference_inclusive (fun a b : Nat => max a b) (fun i => i % 7) i
      ∧ (∀ j, j ≤ i →
          j % 7 ≤ (inclusive_scan 64 32 (fun a b : Nat => max a b) (fun i => i % 7)
            storage).output i)
      ∧ (∃ j, j ≤ i ∧
          j % 7 = (inclusive_scan 64 32 (fun a b : Nat => max a b) (fun i => i % 7)
            storage).output i)
      ∧ (inclusive_scan 64 32 (fun a b : Nat => max a b) (fun i => i % 7) storage).output i
        = min i 6 := by
  have hout : (inclusive_scan 64 32 (fun a b : Nat => max a b) (fun i => i % 7)
      storage).output i
      = reference_inclusive (fun a b : Nat => max a b) (fun i => i % 7) i := by
    unfold inclusive_scan
    rw [inclusive_scan_impl_output 64 32 _ nat_max_assoc _ storage (by decide) i hi,
      reference_inclusive_eq_fold_from]
  refine ⟨hout, ?_, ?_, ?_⟩
  · intro j hj
    rw [hout, reference_inclusive_max_mod_seven]
    omega
  · refine ⟨min i 6, by omega, ?_⟩
    rw [hout, reference_inclusive_max_mod_seven]
    omega
  · rw [hout, reference_inclusive_max_mod_seven]

/-- Instance of C14 at thread 40, in the second lane-group: `x[40] = 5` and the running
maximum is 6. -/
theorem scenario_running_max_witness :
    (inclusive_scan 64 32 (fun a b : Nat => max a b) (fun i => i % 7)
        ⟨fun _ => 0⟩).output 40 = 6 :=
  (scenario_running_max ⟨fun _ => 0⟩ 40 (by decide)).2.2.2.trans (by decide)

/-! ## The content of the shared storage after the aggregation -/

/-- Claim C15: after `calculate_warp_prefixes`, for every group `g < warps_no_`, slot `g`
holds the inclusive scan over the group totals: the left fold of `scan_op` over the
values of the threads `0 .. min((g+1) * warp_size_, BlockSize) - 1`, whether or not
`warps_no_` is a power of two. -/
theorem calculate_warp_prefixes_inclusive (BlockSize warp_size_ : Nat) (scan_op : T → T → T)
    (input : Nat → T) (storage : storage_type T)
    (hW : ∃ k, warp_size_ = 2 ^ k)
    (assoc : ∀ a b c, scan_op (scan_op a b) c = scan_op a (scan_op b c))
    (g : Nat) (hg : g < warps_no_ BlockSize warp_size_) :
    (calculate_warp_prefixes BlockSize warp_size_ scan_op
        (warp_scan_shuffle_inclusive_scan warp_size_ scan_op input) storage).warp_prefixes g
      = reference_inclusive scan_op input (min ((g + 1) * warp_size_) BlockSize - 1) := by
  have hW0 := pow_two_pos _ hW
  rw [calculate_warp_prefixes_slot BlockSize warp_size_ scan_op assoc input storage hW0 g
    ((lt_warps_no_iff _ _ _ hW0).mp hg), reference_inclusive_eq_fold_from]
  rfl

/-- Instance of C15 with list concatenation: 5 threads in lane-groups of 2 give 3
groups; slot 2 holds the fold over the threads 0..4. -/
theorem calculate_warp_prefixes_inclusive_witness :
    (calculate_warp_prefixes 5 2 List.append
        (warp_scan_shuffle_inclusive_scan 2 List.append (fun i => [i]))
        ⟨fun _ => []⟩).warp_prefixes 2 = [0, 1, 2, 3, 4] :=
  (calculate_warp_prefixes_inclusive 5 2 List.append (fun i => [i]) ⟨fun _ => []⟩ ⟨1, rfl⟩
    List.append_assoc 2 (by decide)).trans (by decide)

/-- Counterexample to C16 as stated: with 5 threads in lane-groups of 2 and list
concatenation, slot 1 holds `[0, 1, 2, 3]`, which includes the total `[2, 3]` of group 1
itself; the combination of the totals of the groups before group 1 is `[0, 1]`. -/
theorem slot_includes_own_group_total :
    (calculate_warp_prefixes 5 2 List.append
        (warp_scan_shuffle_inclusive_scan 2 List.append (fun i => [i]))
        ⟨fun _ => []⟩).warp_prefixes 1 = [0, 1, 2, 3]
      ∧ reference_inclusive List.append (fun i => [i]) (1 * 2 - 1) = [0, 1]
      ∧ (calculate_warp_prefixes 5 2 List.append
        (warp_scan_shuffle_inclusive_scan 2 List.append (fun i => [i]))
        ⟨fun _ => []⟩).warp_prefixes 1
        ≠ reference_inclusive List.append (fun i => [i]) (1 * 2 - 1) := by
  decide

/-- Claim C16, as amended: after `calculate_warp_prefixes`, for every group
`i < warps_no_`, slot `i` holds the aggregate of the totals of the groups `0..i`, the
total of group `i` included: it is the fold over the threads up to the last lane of
group `i`, slot 0 is the total of group 0, and for `1 ≤ i` slot `i` is slot `i-1`
combined with the total of group `i`.  The exclusive aggregated prefix of group `i`, the
fold over the threads of the groups before `i`, is held by slot `i-1`, for `1 ≤ i`. -/
theorem calculate_warp_prefixes_exclusive (BlockSize warp_size_ : Nat) (scan_op : T → T → T)
    (input : Nat → T) (storage : storage_type T)
    (hW : ∃ k, warp_size_ = 2 ^ k)
    (assoc : ∀ a b c, scan_op (scan_op a b) c = scan_op a (scan_op b c))
    (i : Nat) (hi : i < warps_no_ BlockSize warp_size_) :
    (calculate_warp_prefixes BlockSize warp_size_ scan_op
        (warp_scan_shuffle_inclusive_scan warp_size_ scan_op input) storage).warp_prefixes i
        = reference_inclusive scan_op input (min ((i + 1) * warp_size_) BlockSize - 1)
      ∧ (calculate_warp_prefixes BlockSize warp_size_ scan_op
        (warp_scan_shuffle_inclusive_scan warp_size_ scan_op input) storage).warp_prefixes 0
        = warp_scan_shuffle_inclusive_scan warp_size_ scan_op input
            (last_lane BlockSize warp_size_ 0)
      ∧ (1 ≤ i →
          (calculate_warp_prefixes BlockSize warp_size_ scan_op
            (warp_scan_shuffle_inclusive_scan warp_size_ scan_op input) storage).warp_prefixes
              (i - 1)
            = reference_inclusive scan_op input (i * warp_size_ - 1)
          ∧ (calculate_warp_prefixes BlockSize warp_size_ scan_op
            (warp_scan_shuffle_inclusive_scan warp_size_ scan_op input) storage).warp_prefixes
              i
            = scan_op
                ((calculate_warp_prefixes BlockSize warp_size_ scan_op
                  (warp_scan_shuffle_inclusive_scan warp_size_ scan_op input)
                  storage).warp_prefixes (i - 1))
                (warp_scan_shuffle_inclusive_scan warp_size_ scan_op input
                  (last_lane BlockSize warp_size_ i))) := by
  have hW0 := pow_two_pos _ hW
  have hiB := (lt_warps_no_iff _ _ _ hW0).mp hi
  have h0 : 0 * warp_size_ < BlockSize := by
    have : 0 ≤ i * warp_size_ := Nat.zero_le _
    omega
  refine ⟨?_, ?_, ?_⟩
  · rw [calculate_warp_prefixes_slot BlockSize warp_size_ scan_op assoc input storage hW0 i
      hiB, reference_inclusive_eq_fold_from]
    rfl
  · obtain ⟨c1, c2, c3⟩ := last_lane_bounds BlockSize warp_size_ 0 hW0 h0
    rw [calculate_warp_prefixes_slot BlockSize warp_size_ scan_op assoc input storage hW0 0
      h0, warp_scan_of_lane warp_size_ 0 _ scan_op input c1 c2]
    simp
  · intro h1
    obtain ⟨j, rfl⟩ := Nat.exists_eq_succ_of_ne_zero (Nat.one_le_iff_ne_zero.mp h1)
    simp only [Nat.succ_eq_add_one, Nat.add_sub_cancel] at *
    have hfull : (j + 1) * warp_size_ ≤ BlockSize := Nat.le_of_lt hiB
    have hj0 : j * warp_size_ < BlockSize := by rw [Nat.add_mul] at hfull; omega
    obtain ⟨b1, b2, b3⟩ := last_lane_bounds BlockSize warp_size_ (j + 1) hW0 hiB
    have hd := last_lane_div BlockSize warp_size_ (j + 1) hW0 hiB
    have hcomb := combine_prefix BlockSize warp_size_ scan_op assoc input storage hW0
      (last_lane BlockSize warp_size_ (j + 1)) b3 (by unfold warp_id; rw [hd]; omega)
    unfold warp_id at hcomb
    rw [hd, Nat.add_sub_cancel] at hcomb
    refine ⟨?_, ?_⟩
    · rw [calculate_warp_prefixes_slot BlockSize warp_size_ scan_op assoc input storage hW0 j
        hj0, last_lane_of_full _ _ _ hfull, reference_inclusive_eq_fold_from]
    · rw [hcomb, calculate_warp_prefixes_slot BlockSize warp_size_ scan_op assoc input
        storage hW0 (j + 1) hiB]

/-- Instances of the amended C16 with list concatenation.  With 5 threads in lane-groups
of 2, at group 1: slot 1 is `[0, 1, 2, 3]` and slot 0 is `[0, 1]`, the exclusive prefix
of group 1.  With 3 threads in one lane-group of 4, at group 0: slot 0 is the total
`[0, 1, 2]` of the only group. -/
theorem calculate_warp_prefixes_exclusive_witness :
    (calculate_warp_prefixes 5 2 List.append
        (warp_scan_shuffle_inclusive_scan 2 List.append (fun i => [i]))
        ⟨fun _ => []⟩).warp_prefixes 1 = [0, 1, 2, 3]
      ∧ (calculate_warp_prefixes 5 2 List.append
        (warp_scan_shuffle_inclusive_scan 2 List.append (fun i => [i]))
        ⟨fun _ => []⟩).warp_prefixes (1 - 1) = [0, 1]
      ∧ warps_no_ 3 4 = 1
      ∧ (calculate_warp_prefixes 3 4 List.append
        (warp_scan_shuffle_inclusive_scan 4 List.append (fun i => [i]))
        ⟨fun _ => []⟩).warp_prefixes 0 = [0, 1, 2] :=
  have h := calculate_warp_prefixes_exclusive 5 2 List.append (fun i => [i]) ⟨fun _ => []⟩
    ⟨1, rfl⟩ List.append_assoc 1 (by decide)
  have g := calculate_warp_prefixes_exclusive 3 4 List.append (fun i => [i]) ⟨fun _ => []⟩
    ⟨2, rfl⟩ List.append_assoc 0 (by decide)
  ⟨h.1.trans (by decide), (h.2.2 (by decide)).1.trans (by decide), by decide,
    g.2.1.trans (by decide)⟩

/-! ## The thread that saves the reduction of its group -/

theorem save_warp_reductions_eq (BlockSize warp_size_ : Nat) (inclusive_input : Nat → T)
    (storage : storage_type T) (hW : 0 < warp_size_) (g : Nat)
    (hg : g * warp_size_ < BlockSize) :
    (save_warp_reductions BlockSize warp_size_ inclusive_input storage).warp_prefixes g
      = inclusive_input (last_lane BlockSize warp_size_ g) := by
  unfold save_warp_reductions
  rw [save_warp_reductions_slot BlockSize warp_size_ inclusive_input storage hW BlockSize
    (Nat.le_refl _) g]
  obtain ⟨_, _, b3⟩ := last_lane_bounds BlockSize warp_size_ g hW hg
  rw [if_pos ⟨hg, b3⟩]

theorem warps_no_is_ceil (BlockSize warp_size_ : Nat) (hW : 0 < warp_size_)
    (hB : 0 < BlockSize) :
    (warps_no_ BlockSize warp_size_ - 1) * warp_size_ < BlockSize
      ∧ BlockSize ≤ warps_no_ BlockSize warp_size_ * warp_size_ := by
  have hpos := warps_no_pos BlockSize warp_size_ hW hB
  constructor
  · exact (lt_warps_no_iff _ _ _ hW).mp (by omega)
  · have h := (lt_warps_no_iff BlockSize warp_size_ (warps_no_ BlockSize warp_size_) hW).not
    have := h.mp (Nat.lt_irrefl _)
    omega

/-- In `unsigned int` arithmetic the constant `warps_no_` and the index of line 546 have
the values computed over the natural numbers, whenever
`BlockSize + warp_size_ ≤ 2 ^ 32`. -/
theorem wrap32_agrees (BlockSize warp_size_ g : Nat) (hB : 1 ≤ BlockSize)
    (hW : 1 ≤ warp_size_) (hfit : BlockSize + warp_size_ ≤ 2 ^ 32)
    (hg : g < warps_no_ BlockSize warp_size_) :
    warps_no_wrap32 BlockSize warp_size_ = warps_no_ BlockSize warp_size_
      ∧ last_lane_wrap32 BlockSize warp_size_ g = last_lane BlockSize warp_size_ g := by
  have hgB := (lt_warps_no_iff _ _ _ hW).mp hg
  have hgle : g * 1 ≤ g * warp_size_ := Nat.mul_le_mul_left _ hW
  have hmul : (g + 1) * warp_size_ = g * warp_size_ + warp_size_ := by
    rw [Nat.add_mul, Nat.one_mul]
  have h32 : (2 : Nat) ^ 32 = 4294967296 := by norm_num
  rw [h32] at hfit
  constructor
  · unfold warps_no_wrap32 warps_no_ wrap32
    rw [h32]
    have e : ((BlockSize + warp_size_) % 4294967296 + (4294967296 - 1)) % 4294967296
        = BlockSize + warp_size_ - 1 := by omega
    rw [e]
  · unfold last_lane_wrap32 last_lane wrap32
    rw [h32, hmul]
    have e1 : (g + 1) % 4294967296 = g + 1 := by omega
    rw [e1, hmul]
    have e2 : (g * warp_size_ + warp_size_) % 4294967296 = g * warp_size_ + warp_size_ := by
      omega
    rw [e2]
    omega

/-- The first phase of `calculate_warp_prefixes` is `save_warp_reductions`: the whole
function is its second phase run on the storage the first phase leaves. -/
theorem calculate_warp_prefixes_phases (BlockSize warp_size_ : Nat) (scan_op : T → T → T)
    (inclusive_input : Nat → T) (storage : storage_type T) :
    calculate_warp_prefixes BlockSize warp_size_ scan_op inclusive_input storage
      = for_each_thread BlockSize (fun flat_tid st =>
          if flat_tid < warps_no_ BlockSize warp_size_ then
            st.set flat_tid
              (warp_scan_shuffle_inclusive_scan
                (next_power_of_two (warps_no_ BlockSize warp_size_)) scan_op
                (fun u =>
                  (save_warp_reductions BlockSize warp_size_ inclusive_input
                    storage).warp_prefixes u)
                flat_tid)
          else st)
          (save_warp_reductions BlockSize warp_size_ inclusive_input storage) := rfl

/-- Content of the storage after `calculate_warp_prefixes` for arbitrary per-thread
values: slot `g` is the left fold, over the groups `0..g`, of the value of the last
existing lane of each group. -/
theorem calculate_warp_prefixes_of_writers (BlockSize warp_size_ : Nat) (scan_op : T → T → T)
    (inclusive_input : Nat → T) (storage : storage_type T) (hW : 0 < warp_size_)
    (g : Nat) (hg : g * warp_size_ < BlockSize) :
    (calculate_warp_prefixes BlockSize warp_size_ scan_op inclusive_input
        storage).warp_prefixes g
      = fold_from scan_op (fun h => inclusive_input (last_lane BlockSize warp_size_ h)) 0 g := by
  have hgw : g < warps_no_ BlockSize warp_size_ := (lt_warps_no_iff _ _ _ hW).mpr hg
  have hgB : g < BlockSize := Nat.lt_of_lt_of_le hgw (warps_no_le _ _ hW)
  unfold calculate_warp_prefixes
  simp only
  rw [store_scanned_slot, if_pos ⟨hgB, hgw⟩]
  have hN : g < next_power_of_two (warps_no_ BlockSize warp_size_) :=
    Nat.lt_of_lt_of_le hgw (le_next_power_of_two _)
  unfold warp_scan_shuffle_inclusive_scan
  rw [Nat.mod_eq_of_lt hN, Nat.sub_self]
  apply fold_from_congr
  intro h hh
  simp only [Nat.zero_add]
  have hhw : h * warp_size_ < BlockSize :=
    Nat.lt_of_le_of_lt (Nat.mul_le_mul_right _ hh) hg
  rw [save_warp_reductions_slot BlockSize warp_size_ _ storage hW BlockSize (Nat.le_refl _) h]
  obtain ⟨_, _, b3⟩ := last_lane_bounds BlockSize warp_size_ h hW hhw
  rw [if_pos ⟨hhw, b3⟩]

theorem write_before_first_barrier (BlockSize warp_size_ g t : Nat) :
    event.write g ∈ before_barrier 550 (calculate_warp_prefixes_events BlockSize warp_size_ t)
      ↔ (t = min ((warp_id warp_size_ t + 1) * warp_size_) BlockSize - 1
          ∧ warp_id warp_size_ t = g) := by
  unfold calculate_warp_prefixes_events
  by_cases hguard : t = min ((warp_id warp_size_ t + 1) * warp_size_) BlockSize - 1
  · rw [if_pos hguard]
    simp only [List.singleton_append, List.cons_append, before_barrier]
    simp only [reduceCtorEq, if_false, if_true, List.mem_singleton, event.write.injEq]
    constructor
    · intro h; exact ⟨hguard, h.symm⟩
    · intro h; exact h.2.symm
  · rw [if_neg hguard]
    simp only [List.nil_append, List.singleton_append, List.cons_append, before_barrier,
      if_true, List.not_mem_nil, false_iff]
    intro h
    exact hguard h.1

/-- Claim C17: for every `BlockSize ≥ 1`, `warp_size_ ≥ 1` and group
`g < warps_no_ = ⌈BlockSize / warp_size_⌉`, the index
`min((g+1) * warp_size_, BlockSize) - 1` is an existing thread, belongs to group `g` and
is the last existing lane of that group.  In `calculate_warp_prefixes` it is the only
existing thread that writes slot `g` before the first barrier; at that barrier slot `g`
holds the value this thread contributed, and so the slot `g` that
`calculate_warp_prefixes` returns is the fold, over the groups `0..g`, of the values of
their last existing lanes, which for the warp-scan results are the totals of the
(possibly partially populated) groups. -/
theorem last_lane_writes_group_total (BlockSize warp_size_ : Nat) (scan_op : T → T → T)
    (input inclusive_input : Nat → T) (storage : storage_type T)
    (hB : 1 ≤ BlockSize) (hW : 1 ≤ warp_size_)
    (g : Nat) (hg : g < warps_no_ BlockSize warp_size_) (t : Nat) (ht : t < BlockSize) :
    ((warps_no_ BlockSize warp_size_ - 1) * warp_size_ < BlockSize
        ∧ BlockSize ≤ warps_no_ BlockSize warp_size_ * warp_size_)
      ∧ (g * warp_size_ ≤ min ((g + 1) * warp_size_) BlockSize - 1
        ∧ min ((g + 1) * warp_size_) BlockSize - 1 < min ((g + 1) * warp_size_) BlockSize
        ∧ min ((g + 1) * warp_size_) BlockSize ≤ BlockSize)
      ∧ warp_id warp_size_ (min ((g + 1) * warp_size_) BlockSize - 1) = g
      ∧ (warp_id warp_size_ t = g → t ≤ min ((g + 1) * warp_size_) BlockSize - 1)
      ∧ ((t = min ((warp_id warp_size_ t + 1) * warp_size_) BlockSize - 1
            ∧ warp_id warp_size_ t = g)
          ↔ t = min ((g + 1) * warp_size_) BlockSize - 1)
      ∧ (event.write g
            ∈ before_barrier 550 (calculate_warp_prefixes_events BlockSize warp_size_ t)
          ↔ t = min ((g + 1) * warp_size_) BlockSize - 1)
      ∧ calculate_warp_prefixes BlockSize warp_size_ scan_op inclusive_input storage
        = for_each_thread BlockSize (fun flat_tid st =>
            if flat_tid < warps_no_ BlockSize warp_size_ then
              st.set flat_tid
                (warp_scan_shuffle_inclusive_scan
                  (next_power_of_two (warps_no_ BlockSize warp_size_)) scan_op
                  (fun u =>
                    (save_warp_reductions BlockSize warp_size_ inclusive_input
                      storage).warp_prefixes u)
                  flat_tid)
            else st)
            (save_warp_reductions BlockSize warp_size_ inclusive_input storage)
      ∧ (save_warp_reductions BlockSize warp_size_ inclusive_input storage).warp_prefixes g
        = inclusive_input (min ((g + 1) * warp_size_) BlockSize - 1)
      ∧ (save_warp_reductions BlockSize warp_size_
          (warp_scan_shuffle_inclusive_scan warp_size_ scan_op input) storage).warp_prefixes g
        = fold_from scan_op input (g * warp_size_)
            (min ((g + 1) * warp_size_) BlockSize - 1 - g * warp_size_)
      ∧ (calculate_warp_prefixes BlockSize warp_size_ scan_op inclusive_input
          storage).warp_prefixes g
        = fold_from scan_op
            (fun h => inclusive_input (min ((h + 1) * warp_size_) BlockSize - 1)) 0 g
      ∧ (calculate_warp_prefixes BlockSize warp_size_ scan_op
          (warp_scan_shuffle_inclusive_scan warp_size_ scan_op input) storage).warp_prefixes g
        = fold_from scan_op
            (fun h => fold_from scan_op input (h * warp_size_)
              (min ((h + 1) * warp_size_) BlockSize - 1 - h * warp_size_)) 0 g := by
  have hgB := (lt_warps_no_iff _ _ _ hW).mp hg
  obtain ⟨b1, b2, b3⟩ := last_lane_bounds BlockSize warp_size_ g hW hgB
  have hd := last_lane_div BlockSize warp_size_ g hW hgB
  have hsave := save_warp_reductions_eq BlockSize warp_size_ inclusive_input storage hW g hgB
  have hsave2 := save_warp_reductions_eq BlockSize warp_size_
    (warp_scan_shuffle_inclusive_scan warp_size_ scan_op input) storage hW g hgB
  rw [warp_scan_of_lane warp_size_ g _ scan_op input b1 b2] at hsave2
  have hfun := calculate_warp_prefixes_of_writers BlockSize warp_size_ scan_op inclusive_input
    storage hW g hgB
  have hfun2 := calculate_warp_prefixes_of_writers BlockSize warp_size_ scan_op
    (warp_scan_shuffle_inclusive_scan warp_size_ scan_op input) storage hW g hgB
  have htotals : fold_from scan_op
      (fun h => warp_scan_shuffle_inclusive_scan warp_size_ scan_op input
        (last_lane BlockSize warp_size_ h)) 0 g
      = fold_from scan_op
        (fun h => fold_from scan_op input (h * warp_size_)
          (last_lane BlockSize warp_size_ h - h * warp_size_)) 0 g := by
    apply fold_from_congr
    intro h hh
    simp only [Nat.zero_add]
    have hhw : h * warp_size_ < BlockSize :=
      Nat.lt_of_le_of_lt (Nat.mul_le_mul_right _ hh) hgB
    obtain ⟨c1, c2, _⟩ := last_lane_bounds BlockSize warp_size_ h hW hhw
    exact warp_scan_of_lane warp_size_ h _ scan_op input c1 c2
  rw [htotals] at hfun2
  have hwriter := writes_total_iff BlockSize warp_size_ g t hW hgB
  unfold last_lane at b1 b2 b3 hd hsave hsave2 hfun hfun2 hwriter
  refine ⟨warps_no_is_ceil BlockSize warp_size_ hW hB, ⟨b1, by omega, Nat.min_le_right _ _⟩,
    hd, ?_, hwriter, ?_,
    calculate_warp_prefixes_phases BlockSize warp_size_ scan_op inclusive_input storage,
    hsave, hsave2, hfun, hfun2⟩
  · intro hwt
    obtain ⟨c1, c2⟩ := warp_bounds warp_size_ t hW
    rw [hwt] at c1 c2
    omega
  · rw [write_before_first_barrier]
    exact hwriter

/-- Instances of C17.  With `BlockSize = 100` and `warp_size_ = 32` the last group,
`g = 3`, has 4 existing lanes and its writer is thread 99.  With `BlockSize = 5`,
`warp_size_ = 2` and the per-thread values `[t]`, thread 4 is the writer of slot 2, and
`calculate_warp_prefixes` returns in slot 2 the values of the writers 1, 3 and 4. -/
theorem last_lane_writes_group_total_witness :
    warp_id 32 (min ((3 + 1) * 32) 100 - 1) = 3 ∧ min ((3 + 1) * 32) 100 - 1 = 99
      ∧ before_barrier 550 (calculate_warp_prefixes_events 5 2 4) = [event.write 2]
      ∧ (calculate_warp_prefixes 5 2 List.append (fun t => [t])
          ⟨fun _ => []⟩).warp_prefixes 2 = [1, 3, 4] :=
  ⟨(last_lane_writes_group_total 100 32 Nat.add (fun _ => 1) (fun _ => 1) ⟨fun _ => 0⟩
      (by decide) (by decide) 3 (by decide) 99 (by decide)).2.2.1, by decide, by decide,
    (last_lane_writes_group_total 5 2 List.append (fun t => [t]) (fun t => [t])
      ⟨fun _ => []⟩ (by decide) (by decide) 2 (by decide) 4
      (by decide)).2.2.2.2.2.2.2.2.2.1.trans (by decide)⟩

/-! ## The uninitialised `warp_prefix` of the scan without `init` -/

theorem zero_of_first_lane_first_warp (W t : Nat) (hl : lane_id W t = 0)
    (hw : warp_id W t = 0) : t = 0 := by
  have h := first_lane_eq W t hl
  rw [hw] at h
  omega

theorem exclusive_scan_impl_no_init_first (BlockSize warp_size_ : Nat) (scan_op : T → T → T)
    (input : Nat → T) (uninit : Nat → T) (storage : storage_type T) :
    (exclusive_scan_impl_no_init BlockSize warp_size_ scan_op input uninit storage).output 0
      = uninit 0 := by
  simp [exclusive_scan_impl_no_init, lane_id, warp_id]

theorem exclusive_scan_impl_no_init_indep (BlockSize warp_size_ : Nat) (scan_op : T → T → T)
    (input : Nat → T) (uninit other : Nat → T) (storage : storage_type T)
    (t : Nat) (ht : t ≠ 0) :
    (exclusive_scan_impl_no_init BlockSize warp_size_ scan_op input uninit storage).output t
      = (exclusive_scan_impl_no_init BlockSize warp_size_ scan_op input other storage).output
          t := by
  unfold exclusive_scan_impl_no_init
  simp only
  by_cases hl : lane_id warp_size_ t = 0
  · have hw : warp_id warp_size_ t ≠ 0 :=
      fun h => ht (zero_of_first_lane_first_warp warp_size_ t hl h)
    rw [if_pos hl, if_pos hl, if_pos hw, if_pos hw]
  · rw [if_neg hl, if_neg hl]
    unfold warp_shuffle_up
    have hfree : ∀ s,
        (if warp_id warp_size_ s ≠ 0 then
          scan_op (if warp_id warp_size_ s ≠ 0 then
              (calculate_warp_prefixes BlockSize warp_size_ scan_op
                (warp_scan_shuffle_inclusive_scan warp_size_ scan_op input)
                storage).warp_prefixes (warp_id warp_size_ s - 1)
            else uninit s)
            (warp_scan_shuffle_inclusive_scan warp_size_ scan_op input s)
        else warp_scan_shuffle_inclusive_scan warp_size_ scan_op input s)
        = (if warp_id warp_size_ s ≠ 0 then
          scan_op (if warp_id warp_size_ s ≠ 0 then
              (calculate_warp_prefixes BlockSize warp_size_ scan_op
                (warp_scan_shuffle_inclusive_scan warp_size_ scan_op input)
                storage).warp_prefixes (warp_id warp_size_ s - 1)
            else other s)
            (warp_scan_shuffle_inclusive_scan warp_size_ scan_op input s)
        else warp_scan_shuffle_inclusive_scan warp_size_ scan_op input s) := by
      intro s
      by_cases hs : warp_id warp_size_ s ≠ 0
      · rw [if_pos hs, if_pos hs, if_pos hs, if_pos hs]
      · rw [if_neg hs, if_neg hs]
    beta_reduce
    rw [hfree t, hfree (t - 1)]

/-- Claim C18: the scan without `init` leaves the result of thread 0 equal to the
uninitialised `warp_prefix` of that thread, and in every public operation built on it
(the multi-item `inclusive_scan` with and without reduction, and the callback overloads)
nothing depends on it: for any two contents `uninit` and `other` of the uninitialised
variables the whole result (all outputs, the reduction, the arguments passed to the
callback, the storage) is the same. -/
theorem uninitialised_prefix_unobservable (BlockSize warp_size_ ItemsPerThread : Nat)
    (scan_op : T → T → T) (input : Nat → T) (items : Nat → Nat → T)
    (prefix_callback_op : Nat → T → T) (uninit other : Nat → T) (storage : storage_type T) :
    (exclusive_scan_impl_no_init BlockSize warp_size_ scan_op input uninit storage).output 0
        = uninit 0
      ∧ inclusive_scan_items BlockSize warp_size_ ItemsPerThread scan_op items uninit storage
        = inclusive_scan_items BlockSize warp_size_ ItemsPerThread scan_op items other storage
      ∧ inclusive_scan_items_reduction BlockSize warp_size_ ItemsPerThread scan_op items uninit
          storage
        = inclusive_scan_items_reduction BlockSize warp_size_ ItemsPerThread scan_op items other
          storage
      ∧ inclusive_scan_items_callback BlockSize warp_size_ ItemsPerThread scan_op items
          prefix_callback_op uninit storage
        = inclusive_scan_items_callback BlockSize warp_size_ ItemsPerThread scan_op items
          prefix_callback_op other storage
      ∧ exclusive_scan_callback BlockSize warp_size_ scan_op input prefix_callback_op uninit
          storage
        = exclusive_scan_callback BlockSize warp_size_ scan_op input prefix_callback_op other
          storage
      ∧ exclusive_scan_items_callback BlockSize warp_size_ ItemsPerThread scan_op items
          prefix_callback_op uninit storage
        = exclusive_scan_items_callback BlockSize warp_size_ ItemsPerThread scan_op items
          prefix_callback_op other storage := by
  have hitems : inclusive_scan_items BlockSize warp_size_ ItemsPerThread scan_op items uninit
      storage
      = inclusive_scan_items BlockSize warp_size_ ItemsPerThread scan_op items other
        storage := by
    unfold inclusive_scan_items
    simp only [exclusive_scan_impl_no_init_storage]
    congr 1
    funext t
    by_cases ht : t = 0
    · rw [if_pos ht, if_pos ht]
    · rw [if_neg ht, if_neg ht,
        exclusive_scan_impl_no_init_indep BlockSize warp_size_ scan_op _ uninit other storage
          t ht]
  refine ⟨exclusive_scan_impl_no_init_first BlockSize warp_size_ scan_op input uninit storage,
    hitems, ?_, ?_, ?_, ?_⟩
  · unfold inclusive_scan_items_reduction
    rw [hitems]
  · unfold inclusive_scan_items_callback
    simp only [exclusive_scan_impl_no_init_storage]
    congr 1
    funext t
    by_cases ht : t = 0
    · rw [if_pos ht, if_pos ht]
    · rw [if_neg ht, if_neg ht,
        exclusive_scan_impl_no_init_indep BlockSize warp_size_ scan_op _ uninit other storage
          t ht]
  · unfold exclusive_scan_callback
    simp only [exclusive_scan_impl_no_init_storage]
    congr 1
    funext t
    by_cases ht : t = 0
    · rw [if_pos ht, if_pos ht]
    · rw [if_neg ht, if_neg ht,
        exclusive_scan_impl_no_init_indep BlockSize warp_size_ scan_op _ uninit other storage
          t ht]
  · unfold exclusive_scan_items_callback
    simp only [exclusive_scan_impl_no_init_storage]
    congr 1
    funext t
    by_cases ht : t = 0
    · rw [if_pos ht, if_pos ht]
    · rw [if_neg ht, if_neg ht,
        exclusive_scan_impl_no_init_indep BlockSize warp_size_ scan_op _ uninit other storage
          t ht]

/-! ## Barriers -/

theorem barriers_append (xs ys : List event) :
    barriers (xs ++ ys) = barriers xs ++ barriers ys := by
  induction xs with
  | nil => rfl
  | cons x xs ih => cases x <;> simp [barriers, ih]

theorem barriers_calculate_warp_prefixes (BlockSize warp_size_ flat_tid : Nat) :
    barriers (calculate_warp_prefixes_events BlockSize warp_size_ flat_tid) = [550, 562] := by
  unfold calculate_warp_prefixes_events
  simp only [barriers_append]
  split <;> split <;> simp [barriers]

theorem barriers_get_block_prefix (BlockSize warp_size_ flat_tid : Nat) :
    barriers ( get_block_prefix_events BlockSize warp_size_ flat_tid) = [582] := by
  unfold get_block_prefix_events
  simp only [barriers_append]
  split
  · split <;> simp [barriers]
  · simp [barriers]

theorem barriers_scan_impl (BlockSize warp_size_ flat_tid : Nat) :
    barriers (inclusive_scan_impl_events BlockSize warp_size_ flat_tid) = [550, 562]
      ∧ barriers (exclusive_scan_impl_events BlockSize warp_size_ flat_tid) = [550, 562]
      ∧ barriers (exclusive_scan_impl_no_init_events BlockSize warp_size_ flat_tid)
        = [550, 562] := by
  unfold inclusive_scan_impl_events exclusive_scan_impl_events
    exclusive_scan_impl_no_init_events
  simp only [barriers_append, barriers_calculate_warp_prefixes]
  split <;> simp [barriers]

theorem barriers_with_reduction (BlockSize warp_size_ : Nat) (scan : List event) :
    barriers (with_reduction_events BlockSize warp_size_ scan) = barriers scan := by
  unfold with_reduction_events
  simp [barriers_append, barriers]

theorem barriers_with_callback (BlockSize warp_size_ flat_tid : Nat) (scan : List event) :
    barriers (with_callback_events BlockSize warp_size_ flat_tid scan)
      = barriers scan ++ [582] := by
  unfold with_callback_events
  simp [barriers_append, barriers, barriers_get_block_prefix]

/-- Claim C19: every thread executes the same fixed sequence of block-wide barriers,
whatever its `flat_tid` (hence its `warp_id` and `lane_id`) and whatever the inputs, on
which no branch depends: the two barriers of `calculate_warp_prefixes` (lines 550 and
562) in every operation and, in the callback overloads, the barrier of
`get_block_prefix` (line 582) after them. -/
theorem same_barriers_for_every_thread (BlockSize warp_size_ flat_tid : Nat) :
    barriers (calculate_warp_prefixes_events BlockSize warp_size_ flat_tid) = [550, 562]
      ∧ barriers ( get_block_prefix_events BlockSize warp_size_ flat_tid) = [582]
      ∧ barriers (inclusive_scan_events BlockSize warp_size_ flat_tid) = [550, 562]
      ∧ barriers (inclusive_scan_reduction_events BlockSize warp_size_ flat_tid) = [550, 562]
      ∧ barriers (inclusive_scan_items_events BlockSize warp_size_ flat_tid) = [550, 562]
      ∧ barriers (inclusive_scan_items_reduction_events BlockSize warp_size_ flat_tid)
        = [550, 562]
      ∧ barriers (exclusive_scan_events BlockSize warp_size_ flat_tid) = [550, 562]
      ∧ barriers (exclusive_scan_reduction_events BlockSize warp_size_ flat_tid) = [550, 562]
      ∧ barriers (exclusive_scan_items_events BlockSize warp_size_ flat_tid) = [550, 562]
      ∧ barriers (exclusive_scan_items_reduction_events BlockSize warp_size_ flat_tid)
        = [550, 562]
      ∧ barriers (inclusive_scan_callback_events BlockSize warp_size_ flat_tid)
        = [550, 562, 582]
      ∧ barriers (inclusive_scan_items_callback_events BlockSize warp_size_ flat_tid)
        = [550, 562, 582]
      ∧ barriers (exclusive_scan_callback_events BlockSize warp_size_ flat_tid)
        = [550, 562, 582]
      ∧ barriers (exclusive_scan_items_callback_events BlockSize warp_size_ flat_tid)
        = [550, 562, 582] := by
  obtain ⟨h1, h2, h3⟩ := barriers_scan_impl BlockSize warp_size_ flat_tid
  refine ⟨barriers_calculate_warp_prefixes _ _ _, barriers_get_block_prefix _ _ _,
    ?_, ?_, ?_, ?_, ?_, ?_, ?_, ?_, ?_, ?_, ?_, ?_⟩
  · exact h1
  · unfold inclusive_scan_reduction_events inclusive_scan_events
    rw [barriers_with_reduction, h1]
  · exact h3
  · unfold inclusive_scan_items_reduction_events inclusive_scan_items_events
    rw [barriers_with_reduction, h3]
  · exact h2
  · unfold exclusive_scan_reduction_events exclusive_scan_events
    rw [barriers_with_reduction, h2]
  · exact h2
  · unfold exclusive_scan_items_reduction_events exclusive_scan_items_events
    rw [barriers_with_reduction, h2]
  · unfold inclusive_scan_callback_events
    rw [barriers_with_callback, h1]; rfl
  · unfold inclusive_scan_items_callback_events
    rw [barriers_with_callback, h3]; rfl
  · unfold exclusive_scan_callback_events
    rw [barriers_with_callback, h3]; rfl
  · unfold exclusive_scan_items_callback_events
    rw [barriers_with_callback, h3]; rfl

/-! ## The frame of `get_block_prefix` -/

theorem get_block_prefix_storage (BlockSize warp_size_ : Nat) (reduction : Nat → T)
    (prefix_callback_op : Nat → T → T) (storage : storage_type T) (hW : 0 < warp_size_) :
    ( get_block_prefix BlockSize warp_size_ reduction prefix_callback_op storage).storage
      = if 0 < BlockSize then
          storage.set (warps_no_ BlockSize warp_size_ - 1) (prefix_callback_op 0 (reduction 0))
        else storage := by
  unfold get_block_prefix
  simp only
  rw [get_block_prefix_threads BlockSize warp_size_ reduction prefix_callback_op storage hW]

theorem get_block_prefix_frame (BlockSize warp_size_ : Nat) (reduction : Nat → T)
    (prefix_callback_op : Nat → T → T) (storage : storage_type T) (hW : 0 < warp_size_)
    (j : Nat) (hj : j ≠ warps_no_ BlockSize warp_size_ - 1) :
    ( get_block_prefix BlockSize warp_size_ reduction prefix_callback_op
        storage).storage.warp_prefixes j = storage.warp_prefixes j := by
  rw [get_block_prefix_storage _ _ _ _ _ hW]
  split
  · rw [warp_prefixes_set, if_neg hj]
  · rfl

theorem warp_id_lt_warps_no (BlockSize warp_size_ t : Nat) (hW : 0 < warp_size_)
    (ht : t < BlockSize) : warp_id warp_size_ t < warps_no_ BlockSize warp_size_ := by
  rw [lt_warps_no_iff _ _ _ hW]
  exact Nat.lt_of_le_of_lt (warp_bounds warp_size_ t hW).1 ht

/-- Claim C20: `get_block_prefix` changes no slot other than `warps_no_ - 1`, the only
slot it writes; a thread that reads a group prefix has `1 ≤ warp_id ≤ warps_no_ - 1` and
reads slot `warp_id - 1`, which is not slot `warps_no_ - 1`, so the group prefix it uses
is not changed by the store of the block prefix. -/
theorem get_block_prefix_keeps_group_prefixes (BlockSize warp_size_ : Nat)
    (reduction : Nat → T) (prefix_callback_op : Nat → T → T) (storage : storage_type T)
    (hW : ∃ k, warp_size_ = 2 ^ k)
    (j : Nat) (hj : j ≠ warps_no_ BlockSize warp_size_ - 1)
    (t : Nat) (ht : t < BlockSize) (hw : warp_id warp_size_ t ≠ 0) :
    ( get_block_prefix BlockSize warp_size_ reduction prefix_callback_op
        storage).storage.warp_prefixes j = storage.warp_prefixes j
      ∧ (∀ s u, event.write s ∈ get_block_prefix_events BlockSize warp_size_ u →
          s = warps_no_ BlockSize warp_size_ - 1)
      ∧ 1 ≤ warp_id warp_size_ t
      ∧ warp_id warp_size_ t ≤ warps_no_ BlockSize warp_size_ - 1
      ∧ warp_id warp_size_ t - 1 ≠ warps_no_ BlockSize warp_size_ - 1
      ∧ ( get_block_prefix BlockSize warp_size_ reduction prefix_callback_op
        storage).storage.warp_prefixes (warp_id warp_size_ t - 1)
        = storage.warp_prefixes (warp_id warp_size_ t - 1) := by
  have hW0 := pow_two_pos _ hW
  have hlt := warp_id_lt_warps_no BlockSize warp_size_ t hW0 ht
  have hne : warp_id warp_size_ t - 1 ≠ warps_no_ BlockSize warp_size_ - 1 := by omega
  refine ⟨get_block_prefix_frame _ _ _ _ _ hW0 j hj, ?_, by omega, by omega, hne,
    get_block_prefix_frame _ _ _ _ _ hW0 _ hne⟩
  intro s u hmem
  unfold get_block_prefix_events at hmem
  by_cases h1 : warp_id warp_size_ u = 0
  · by_cases h2 : u = 0
    · subst h2
      simp [h1] at hmem
      exact hmem
    · simp [h1, h2] at hmem
  · simp [h1] at hmem

/-- Instance of C20: 5 threads in lane-groups of 2 (3 slots); slot 0 is unchanged and
thread 4, of group 2, reads its group prefix from slot 1, not from slot 2. -/
theorem get_block_prefix_keeps_group_prefixes_witness :
    ( get_block_prefix 5 2 (fun _ => 15) (fun _ r => r + 100)
        ⟨fun s => s + 1⟩).storage.warp_prefixes 0 = 1
      ∧ warp_id 2 4 - 1 ≠ warps_no_ 5 2 - 1
      ∧ ( get_block_prefix 5 2 (fun _ => 15) (fun _ r => r + 100)
        ⟨fun s => s + 1⟩).storage.warp_prefixes (warp_id 2 4 - 1) = 2 :=
  have h := get_block_prefix_keeps_group_prefixes 5 2 (fun _ => 15) (fun _ r => r + 100)
    ⟨fun s => s + 1⟩ ⟨1, rfl⟩ 0 (by decide) 4 (by decide) (by decide)
  ⟨h.1, h.2.2.2.2.1, h.2.2.2.2.2⟩

/-! ## The value returned by `get_block_prefix` -/

theorem get_block_prefix_congr (BlockSize warp_size_ : Nat) (reduction : Nat → T)
    (prefix_callback_op other_callback_op : Nat → T → T) (storage : storage_type T)
    (hW : 0 < warp_size_)
    (h0 : prefix_callback_op 0 (reduction 0) = other_callback_op 0 (reduction 0)) :
    get_block_prefix BlockSize warp_size_ reduction prefix_callback_op storage
      = get_block_prefix BlockSize warp_size_ reduction other_callback_op storage := by
  unfold get_block_prefix
  simp only
  rw [get_block_prefix_threads BlockSize warp_size_ reduction prefix_callback_op storage hW,
    get_block_prefix_threads BlockSize warp_size_ reduction other_callback_op storage hW, h0]

/-- Claim C21: `get_block_prefix` returns the same value to every thread of the block,
the value the callback returned to thread `flat_tid = 0`; the values the callback
returns to the other threads affect nothing: two callbacks that agree on thread 0 give
the same result (outputs, calls and storage) in `get_block_prefix` and in each of the
four callback overloads. -/
theorem block_prefix_is_callback_result_of_thread_zero
    (BlockSize warp_size_ ItemsPerThread : Nat) (scan_op : T → T → T)
    (reduction input : Nat → T) (items : Nat → Nat → T)
    (prefix_callback_op other_callback_op : Nat → T → T) (uninit : Nat → T)
    (storage : storage_type T)
    (hB : 1 ≤ BlockSize) (hW : ∃ k, warp_size_ = 2 ^ k)
    (hagree : ∀ r, prefix_callback_op 0 r = other_callback_op 0 r) (t u : Nat) :
    ( get_block_prefix BlockSize warp_size_ reduction prefix_callback_op storage).output t
        = ( get_block_prefix BlockSize warp_size_ reduction prefix_callback_op storage).output u
      ∧ ( get_block_prefix BlockSize warp_size_ reduction prefix_callback_op storage).output t
        = prefix_callback_op 0 (reduction 0)
      ∧ get_block_prefix BlockSize warp_size_ reduction prefix_callback_op storage
        = get_block_prefix BlockSize warp_size_ reduction other_callback_op storage
      ∧ inclusive_scan_callback BlockSize warp_size_ scan_op input prefix_callback_op storage
        = inclusive_scan_callback BlockSize warp_size_ scan_op input other_callback_op storage
      ∧ exclusive_scan_callback BlockSize warp_size_ scan_op input prefix_callback_op uninit
          storage
        = exclusive_scan_callback BlockSize warp_size_ scan_op input other_callback_op uninit
          storage
      ∧ inclusive_scan_items_callback BlockSize warp_size_ ItemsPerThread scan_op items
          prefix_callback_op uninit storage
        = inclusive_scan_items_callback BlockSize warp_size_ ItemsPerThread scan_op items
          other_callback_op uninit storage
      ∧ exclusive_scan_items_callback BlockSize warp_size_ ItemsPerThread scan_op items
          prefix_callback_op uninit storage
        = exclusive_scan_items_callback BlockSize warp_size_ ItemsPerThread scan_op items
          other_callback_op uninit storage := by
  have hW0 := pow_two_pos _ hW
  have hout := get_block_prefix_output BlockSize warp_size_ reduction prefix_callback_op storage
    hW0 hB
  refine ⟨by rw [hout t, hout u], hout t,
    get_block_prefix_congr _ _ _ _ _ _ hW0 (hagree _), ?_, ?_, ?_, ?_⟩
  · unfold inclusive_scan_callback
    simp only
    rw [get_block_prefix_congr BlockSize warp_size_ _ prefix_callback_op other_callback_op _
      hW0 (hagree _)]
  · unfold exclusive_scan_callback
    simp only
    rw [get_block_prefix_congr BlockSize warp_size_ _ prefix_callback_op other_callback_op _
      hW0 (hagree _)]
  · unfold inclusive_scan_items_callback
    simp only
    rw [get_block_prefix_congr BlockSize warp_size_ _ prefix_callback_op other_callback_op _
      hW0 (hagree _)]
  · unfold exclusive_scan_items_callback
    simp only
    rw [get_block_prefix_congr BlockSize warp_size_ _ prefix_callback_op other_callback_op _
      hW0 (hagree _)]

/-- Instance of C21: 6 threads in lane-groups of 4 and two callbacks that differ on
every thread but thread 0; thread 5 is returned the value given to thread 0, and the
output of the single-value `exclusive_scan` at thread 3 is the same for both. -/
theorem block_prefix_is_callback_result_of_thread_zero_witness :
    ( get_block_prefix 6 4 (fun _ => 21) (fun t r => 100 * t + r) ⟨fun _ => 0⟩).output 5
        = 21
      ∧ (exclusive_scan_callback 6 4 Nat.add (fun _ => 1) (fun t r => 100 * t + r)
          (fun _ => 0) ⟨fun _ => 0⟩).output 3
        = (exclusive_scan_callback 6 4 Nat.add (fun _ => 1) (fun t r => if t = 0 then r else 7)
          (fun _ => 0) ⟨fun _ => 0⟩).output 3 :=
  have h := block_prefix_is_callback_result_of_thread_zero 6 4 1 Nat.add (fun _ => 21)
    (fun _ => 1) (fun _ _ => 1) (fun t r => 100 * t + r) (fun t r => if t = 0 then r else 7)
    (fun _ => 0) ⟨fun _ => 0⟩ (by decide) ⟨2, rfl⟩ (fun r => by simp) 5 0
  ⟨h.2.1.trans (by decide), congrArg (fun s => s.output 3) h.2.2.2.2.1⟩

/-! ## Bounds of the accesses to `storage.warp_prefixes` -/

theorem accessed_slots_append (xs ys : List event) :
    accessed_slots (xs ++ ys) = accessed_slots xs ++ accessed_slots ys := by
  induction xs with
  | nil => rfl
  | cons x xs ih => cases x <;> simp [accessed_slots, ih]

theorem accessed_calculate_warp_prefixes (BlockSize warp_size_ flat_tid : Nat)
    (hW : 0 < warp_size_) (ht : flat_tid < BlockSize) (s : Nat)
    (hs : s ∈ accessed_slots (calculate_warp_prefixes_events BlockSize warp_size_ flat_tid)) :
    s < warps_no_ BlockSize warp_size_ := by
  have hlt := warp_id_lt_warps_no BlockSize warp_size_ flat_tid hW ht
  unfold calculate_warp_prefixes_events at hs
  simp only [accessed_slots_append, List.mem_append] at hs
  rcases hs with ((hs | hs) | hs) | hs
  · split at hs
    · simp [accessed_slots] at hs; omega
    · simp [accessed_slots] at hs
  · simp [accessed_slots] at hs
  · split at hs
    · simp [accessed_slots] at hs; omega
    · simp [accessed_slots] at hs
  · simp [accessed_slots] at hs

theorem accessed_group_prefix (BlockSize warp_size_ flat_tid : Nat)
    (hW : 0 < warp_size_) (ht : flat_tid < BlockSize) (s : Nat)
    (hs : s ∈ accessed_slots
      (if warp_id warp_size_ flat_tid ≠ 0 then [event.read (warp_id warp_size_ flat_tid - 1)]
        else [])) :
    s < warps_no_ BlockSize warp_size_ := by
  have hlt := warp_id_lt_warps_no BlockSize warp_size_ flat_tid hW ht
  split at hs
  · simp [accessed_slots] at hs; omega
  · simp [accessed_slots] at hs

theorem accessed_scan_impl (BlockSize warp_size_ flat_tid : Nat)
    (hW : 0 < warp_size_) (ht : flat_tid < BlockSize) (s : Nat) :
    (s ∈ accessed_slots (inclusive_scan_impl_events BlockSize warp_size_ flat_tid) →
        s < warps_no_ BlockSize warp_size_)
      ∧ (s ∈ accessed_slots (exclusive_scan_impl_events BlockSize warp_size_ flat_tid) →
        s < warps_no_ BlockSize warp_size_)
      ∧ (s ∈ accessed_slots (exclusive_scan_impl_no_init_events BlockSize warp_size_ flat_tid) →
        s < warps_no_ BlockSize warp_size_) := by
  unfold inclusive_scan_impl_events exclusive_scan_impl_events
    exclusive_scan_impl_no_init_events
  simp only [accessed_slots_append, List.mem_append]
  have h : (s ∈ accessed_slots (calculate_warp_prefixes_events BlockSize warp_size_ flat_tid)
      ∨ s ∈ accessed_slots
        (if warp_id warp_size_ flat_tid ≠ 0 then
          [event.read (warp_id warp_size_ flat_tid - 1)] else [])) →
      s < warps_no_ BlockSize warp_size_ := by
    rintro (hs | hs)
    · exact accessed_calculate_warp_prefixes _ _ _ hW ht s hs
    · exact accessed_group_prefix _ _ _ hW ht s hs
  exact ⟨h, h, h⟩

theorem accessed_get_block_prefix (BlockSize warp_size_ flat_tid : Nat)
    (hW : 0 < warp_size_) (ht : flat_tid < BlockSize) (s : Nat)
    (hs : s ∈ accessed_slots ( get_block_prefix_events BlockSize warp_size_ flat_tid)) :
    s < warps_no_ BlockSize warp_size_ := by
  have hpos := warps_no_pos BlockSize warp_size_ hW (by omega)
  unfold get_block_prefix_events at hs
  simp only [accessed_slots_append, List.mem_append] at hs
  rcases hs with (hs | hs) | hs
  · split at hs
    · simp only [accessed_slots_append, List.mem_append] at hs
      rcases hs with hs | hs
      · simp [accessed_slots] at hs
      · split at hs
        · simp [accessed_slots] at hs; omega
        · simp [accessed_slots] at hs
    · simp [accessed_slots] at hs
  · simp [accessed_slots] at hs
  · simp [accessed_slots] at hs; omega

theorem accessed_with_reduction (BlockSize warp_size_ : Nat) (scan : List event)
    (hW : 0 < warp_size_) (hB : 0 < BlockSize)
    (hscan : ∀ s, s ∈ accessed_slots scan → s < warps_no_ BlockSize warp_size_) (s : Nat)
    (hs : s ∈ accessed_slots (with_reduction_events BlockSize warp_size_ scan)) :
    s < warps_no_ BlockSize warp_size_ := by
  have hpos := warps_no_pos BlockSize warp_size_ hW hB
  unfold with_reduction_events at hs
  simp only [accessed_slots_append, List.mem_append] at hs
  rcases hs with hs | hs
  · exact hscan s hs
  · simp [accessed_slots] at hs; omega

theorem accessed_with_callback (BlockSize warp_size_ flat_tid : Nat) (scan : List event)
    (hW : 0 < warp_size_) (ht : flat_tid < BlockSize)
    (hscan : ∀ s, s ∈ accessed_slots scan → s < warps_no_ BlockSize warp_size_) (s : Nat)
    (hs : s ∈ accessed_slots (with_callback_events BlockSize warp_size_ flat_tid scan)) :
    s < warps_no_ BlockSize warp_size_ := by
  have hpos := warps_no_pos BlockSize warp_size_ hW (by omega)
  unfold with_callback_events at hs
  simp only [accessed_slots_append, List.mem_append] at hs
  rcases hs with (hs | hs) | hs
  · exact hscan s hs
  · simp [accessed_slots] at hs; omega
  · exact accessed_get_block_prefix _ _ _ hW ht s hs

/-- Claim C22: for every `BlockSize ≥ 1` and `warp_size_ ≥ 1`, so that
`warps_no_ ≥ 1`, every slot of `storage.warp_prefixes` that an existing thread reads or
writes, in `calculate_warp_prefixes`, in `get_block_prefix` and in each of the twelve
public operations, is below `warps_no_`: the indices are `warp_id`, `flat_tid` under the
guard `flat_tid < warps_no_`, `warp_id - 1` under the guard `warp_id != 0`, and
`warps_no_ - 1`. -/
theorem accesses_in_bounds (BlockSize warp_size_ flat_tid : Nat)
    (hB : 1 ≤ BlockSize) (hW : 1 ≤ warp_size_) (ht : flat_tid < BlockSize) (s : Nat) :
    1 ≤ warps_no_ BlockSize warp_size_
      ∧ warp_id warp_size_ flat_tid < warps_no_ BlockSize warp_size_
      ∧ warps_no_ BlockSize warp_size_ - 1 < warps_no_ BlockSize warp_size_
      ∧ (s ∈ accessed_slots (calculate_warp_prefixes_events BlockSize warp_size_ flat_tid) →
        s < warps_no_ BlockSize warp_size_)
      ∧ (s ∈ accessed_slots ( get_block_prefix_events BlockSize warp_size_ flat_tid) →
        s < warps_no_ BlockSize warp_size_)
      ∧ (s ∈ accessed_slots (inclusive_scan_events BlockSize warp_size_ flat_tid) →
        s < warps_no_ BlockSize warp_size_)
      ∧ (s ∈ accessed_slots (inclusive_scan_reduction_events BlockSize warp_size_ flat_tid) →
        s < warps_no_ BlockSize warp_size_)
      ∧ (s ∈ accessed_slots (inclusive_scan_callback_events BlockSize warp_size_ flat_tid) →
        s < warps_no_ BlockSize warp_size_)
      ∧ (s ∈ accessed_slots (inclusive_scan_items_events BlockSize warp_size_ flat_tid) →
        s < warps_no_ BlockSize warp_size_)
      ∧ (s ∈ accessed_slots
          (inclusive_scan_items_reduction_events BlockSize warp_size_ flat_tid) →
        s < warps_no_ BlockSize warp_size_)
      ∧ (s ∈ accessed_slots
          (inclusive_scan_items_callback_events BlockSize warp_size_ flat_tid) →
        s < warps_no_ BlockSize warp_size_)
      ∧ (s ∈ accessed_slots (exclusive_scan_events BlockSize warp_size_ flat_tid) →
        s < warps_no_ BlockSize warp_size_)
      ∧ (s ∈ accessed_slots (exclusive_scan_reduction_events BlockSize warp_size_ flat_tid) →
        s < warps_no_ BlockSize warp_size_)
      ∧ (s ∈ accessed_slots (exclusive_scan_callback_events BlockSize warp_size_ flat_tid) →
        s < warps_no_ BlockSize warp_size_)
      ∧ (s ∈ accessed_slots (exclusive_scan_items_events BlockSize warp_size_ flat_tid) →
        s < warps_no_ BlockSize warp_size_)
      ∧ (s ∈ accessed_slots
          (exclusive_scan_items_reduction_events BlockSize warp_size_ flat_tid) →
        s < warps_no_ BlockSize warp_size_)
      ∧ (s ∈ accessed_slots
          (exclusive_scan_items_callback_events BlockSize warp_size_ flat_tid) →
        s < warps_no_ BlockSize warp_size_) := by
  have hpos := warps_no_pos BlockSize warp_size_ hW hB
  have himpl : ∀ x,
      (x ∈ accessed_slots (inclusive_scan_impl_events BlockSize warp_size_ flat_tid) →
        x < warps_no_ BlockSize warp_size_)
      ∧ (x ∈ accessed_slots (exclusive_scan_impl_events BlockSize warp_size_ flat_tid) →
        x < warps_no_ BlockSize warp_size_)
      ∧ (x ∈ accessed_slots (exclusive_scan_impl_no_init_events BlockSize warp_size_ flat_tid) →
        x < warps_no_ BlockSize warp_size_) :=
    fun x => accessed_scan_impl BlockSize warp_size_ flat_tid hW ht x
  have hinc : ∀ x, x ∈ accessed_slots (inclusive_scan_impl_events BlockSize warp_size_ flat_tid)
      → x < warps_no_ BlockSize warp_size_ := fun x => (himpl x).1
  have hexc : ∀ x, x ∈ accessed_slots (exclusive_scan_impl_events BlockSize warp_size_ flat_tid)
      → x < warps_no_ BlockSize warp_size_ := fun x => (himpl x).2.1
  have hno : ∀ x,
      x ∈ accessed_slots (exclusive_scan_impl_no_init_events BlockSize warp_size_ flat_tid)
      → x < warps_no_ BlockSize warp_size_ := fun x => (himpl x).2.2
  refine ⟨hpos, warp_id_lt_warps_no BlockSize warp_size_ flat_tid hW ht, by omega,
    accessed_calculate_warp_prefixes _ _ _ hW ht s, accessed_get_block_prefix _ _ _ hW ht s,
    ?_, ?_, ?_, ?_, ?_, ?_, ?_, ?_, ?_, ?_, ?_, ?_⟩
  · exact hinc s
  · exact accessed_with_reduction _ _ _ hW hB hinc s
  · exact accessed_with_callback _ _ _ _ hW ht hinc s
  · exact hno s
  · exact accessed_with_reduction _ _ _ hW hB hno s
  · exact accessed_with_callback _ _ _ _ hW ht hno s
  · exact hexc s
  · exact accessed_with_reduction _ _ _ hW hB hexc s
  · exact accessed_with_callback _ _ _ _ hW ht hno s
  · exact hexc s
  · exact accessed_with_reduction _ _ _ hW hB hexc s
  · exact accessed_with_callback _ _ _ _ hW ht hno s

/-- Instance of C22: `BlockSize = 100`, `warp_size_ = 32` (4 slots) and the last thread,
99, which saves the reduction of the partial group 3: in the single-value
`exclusive_scan` with callback it accesses the slots 3, 2, 3, 3. -/
theorem accesses_in_bounds_witness :
    accessed_slots (exclusive_scan_callback_events 100 32 99) = [3, 2, 3, 3]
      ∧ warps_no_ 100 32 = 4
      ∧ 2 < warps_no_ 100 32 :=
  ⟨by decide, by decide,
    (accesses_in_bounds 100 32 99 (by decide) (by decide) (by decide) 2).2.2.2.2.2.2.2.2.2.2.2.2.2.1
      (by decide)⟩

/-! ## One item per thread -/

theorem flatten_one (items : Nat → Nat → T) (i : Nat) : flatten 1 items i = items i 0 := by
  simp [flatten, Nat.mod_one]

/-- Claim C23: the multi-item `inclusive_scan` with `ItemsPerThread = 1` gives every
thread the output of the single-value `inclusive_scan` on the same inputs and reports
the same reduction, for every block size, power-of-two `warp_size_` and associative
`scan_op`; the shared storage the two calls leave is the same too. -/
theorem inclusive_scan_items_one_eq_single (BlockSize warp_size_ : Nat) (scan_op : T → T → T)
    (input : Nat → T) (items : Nat → Nat → T) (uninit : Nat → T) (storage : storage_type T)
    (hW : ∃ k, warp_size_ = 2 ^ k)
    (assoc : ∀ a b c, scan_op (scan_op a b) c = scan_op a (scan_op b c))
    (hitems : ∀ flat_tid, items flat_tid 0 = input flat_tid)
    (t : Nat) (ht : t < BlockSize) :
    (inclusive_scan_items BlockSize warp_size_ 1 scan_op items uninit storage).output t 0
        = (inclusive_scan BlockSize warp_size_ scan_op input storage).output t
      ∧ (inclusive_scan_items_reduction BlockSize warp_size_ 1 scan_op items uninit
          storage).output t 0
        = (inclusive_scan_reduction BlockSize warp_size_ scan_op input storage).output t
      ∧ (inclusive_scan_items_reduction BlockSize warp_size_ 1 scan_op items uninit
          storage).reduction t
        = (inclusive_scan_reduction BlockSize warp_size_ scan_op input storage).reduction t
      ∧ (inclusive_scan_items BlockSize warp_size_ 1 scan_op items uninit storage).storage
        = (inclusive_scan BlockSize warp_size_ scan_op input storage).storage := by
  have hW0 := pow_two_pos _ hW
  have hin : (fun flat_tid => reduce_items scan_op (items flat_tid) (1 - 1)) = input := by
    funext flat_tid
    simp [reduce_items, hitems]
  have hout : (inclusive_scan_items BlockSize warp_size_ 1 scan_op items uninit
      storage).output t 0
      = (inclusive_scan BlockSize warp_size_ scan_op input storage).output t := by
    rw [inclusive_scan_items_output BlockSize warp_size_ 1 scan_op assoc items uninit storage
      hW0 t ht 0 (by decide)]
    unfold inclusive_scan
    rw [inclusive_scan_impl_output BlockSize warp_size_ scan_op assoc input storage hW0 t ht,
      Nat.mul_one, Nat.add_zero]
    apply fold_from_congr
    intro i _
    rw [flatten_one, hitems]
  have hst : (inclusive_scan_items BlockSize warp_size_ 1 scan_op items uninit storage).storage
      = (inclusive_scan BlockSize warp_size_ scan_op input storage).storage := by
    unfold inclusive_scan_items inclusive_scan
    simp only
    rw [exclusive_scan_impl_no_init_storage, inclusive_scan_impl_storage, hin]
  refine ⟨hout, ?_, ?_, hst⟩
  · unfold inclusive_scan_items_reduction inclusive_scan_reduction
    exact hout
  · unfold inclusive_scan_items_reduction inclusive_scan_reduction
    simp only
    rw [hst]

/-- Instance of C23 with list concatenation: 5 threads in lane-groups of 2; thread 4
receives `[0, 1, 2, 3, 4]` from both overloads and both report that reduction. -/
theorem inclusive_scan_items_one_eq_single_witness :
    (inclusive_scan_items 5 2 1 List.append (fun t _ => [t]) (fun _ => [77])
        ⟨fun _ => []⟩).output 4 0
        = [0, 1, 2, 3, 4]
      ∧ (inclusive_scan 5 2 List.append (fun t => [t]) ⟨fun _ => []⟩).output 4
        = [0, 1, 2, 3, 4]
      ∧ (inclusive_scan_items_reduction 5 2 1 List.append (fun t _ => [t]) (fun _ => [77])
          ⟨fun _ => []⟩).reduction 4
        = (inclusive_scan_reduction 5 2 List.append (fun t => [t]) ⟨fun _ => []⟩).reduction 4 :=
  have h := inclusive_scan_items_one_eq_single 5 2 List.append (fun t => [t])
    (fun t _ => [t]) (fun _ => [77]) ⟨fun _ => []⟩ ⟨1, rfl⟩ List.append_assoc (fun _ => rfl)
    4 (by decide)
  ⟨by decide, h.1.symm.trans (by decide), h.2.2.1⟩

end block_scan_warp_scan
